import Mathlib

set_option maxHeartbeats 1000000
set_option maxRecDepth 4000

/-!
Formal model of the Muaina report PDF generator (`scripts/generate-pdf.py`).

The script reads a JSON object from standard input, builds an ordered list of
layout blocks (headings, paragraphs, an information table, spacers, page
breaks, horizontal rules) and hands it to a layout engine.  We model JSON
values, the dynamic `dict.get` lookups with Python truthiness, and the block
list built by `generate_pdf`; the layout engine is not modelled, so the
"document" is the block list itself.  Failures of the script itself while
building the block list (attribute errors on non-dict values, type errors on
slicing or upper-casing non-strings, non-iterable loop subjects) are
modelled with `Except String`; failures the layout engine can raise on
present values while parsing paragraph markup or typesetting
(`Paragraph(...)` markup errors, table-cell and pagination errors in
`doc.build`) are outside the model, so a successful model run means the
script's own field handling raised no error.
-/

/-- JSON values as produced by `json.loads`; numbers are modelled as
integers (no claim depends on fractional values). -/
inductive Json where
  | null
  | bool (b : Bool)
  | num (n : Int)
  | str (s : String)
  | arr (elems : List Json)
  | obj (fields : List (String × Json))

/-- Python truthiness of a JSON value (`if x:`). -/
def Json.truthy : Json → Bool
  | .null => false
  | .bool b => b
  | .num n => n != 0
  | .str s => !s.data.isEmpty
  | .arr xs => !xs.isEmpty
  | .obj fs => !fs.isEmpty

/-- Lookup in an association list where a later binding for the same key wins,
matching the dictionary produced by `json.loads` on duplicate keys. -/
def lookupLast (fs : List (String × Json)) (k : String) : Option Json :=
  match fs with
  | [] => none
  | (k', v) :: rest =>
    match lookupLast rest k with
    | some r => some r
    | none => if k' = k then some v else none

/-- The value of a field of a JSON object, if the value is an object and the
field is present. -/
def jfieldOpt (data : Json) (k : String) : Option Json :=
  match data with
  | .obj fs => lookupLast fs k
  | _ => none

/-- `data.get(k, d)` restricted to objects (total version, used in
specifications). -/
def jfieldD (data : Json) (k : String) (d : Json) : Json :=
  (jfieldOpt data k).getD d

/-- `data.get(k)` restricted to objects: `None` when absent. -/
def jfield (data : Json) (k : String) : Json :=
  jfieldD data k Json.null

/-- Python `x.get(k, d)`: returns the stored value or the default on a dict,
raises `AttributeError` on anything else. -/
def pyGetD (j : Json) (k : String) (d : Json) : Except String Json :=
  match j with
  | .obj fs => .ok ((lookupLast fs k).getD d)
  | _ => .error "AttributeError: object has no attribute get"

/-- Python `x.get(k)` (default `None`). -/
def pyGet (j : Json) (k : String) : Except String Json :=
  pyGetD j k Json.null

/-- Upper-casing of a string, character by character (Python `str.upper` for
the ASCII range). -/
def upperStr (s : String) : String :=
  ⟨s.data.map Char.toUpper⟩

/-- The first `n` characters of a string (Python `s[:n]` for strings). -/
def takeChars (s : String) (n : Nat) : String :=
  ⟨s.data.take n⟩

mutual
/-- Python `repr` of a parsed-JSON value (element form used inside
`str` of lists and dicts). -/
def pyRepr : Json → String
  | .null => "None"
  | .bool true => "True"
  | .bool false => "False"
  | .num n => toString n
  | .str s => "\x27" ++ s ++ "\x27"
  | .arr xs => "[" ++ String.intercalate ", " (pyReprList xs) ++ "]"
  | .obj fs => "\x7b" ++ String.intercalate ", " (pyReprFields fs) ++ "\x7d"

/-- `pyRepr` mapped over a list of values. -/
def pyReprList : List Json → List String
  | [] => []
  | x :: xs => pyRepr x :: pyReprList xs

/-- `pyRepr` entries for the fields of a dict. -/
def pyReprFields : List (String × Json) → List String
  | [] => []
  | (k, v) :: fs => ("\x27" ++ k ++ "\x27: " ++ pyRepr v) :: pyReprFields fs
end

/-- Python `str` of a parsed-JSON value, as interpolated by f-strings. -/
def pyStr : Json → String
  | .str s => s
  | j => pyRepr j

/-- Python `x[:8] + "..."` without the suffix: succeeds exactly when the code
does.  Strings slice to their first 8 characters; any other value either does
not support slicing or cannot be concatenated with a string. -/
def pySlice8 : Json → Except String String
  | .str s => .ok (takeChars s 8)
  | _ => .error "TypeError: value does not support slicing with string concatenation"

/-- Python `x.upper()`: raises `AttributeError` unless `x` is a string. -/
def pyUpper : Json → Except String String
  | .str s => .ok (upperStr s)
  | _ => .error "AttributeError: object has no attribute upper"

/-- A value handed directly to `Paragraph(...)`: the layout engine requires a
string.  The engine then parses that string as inline markup; that parsing,
which can reject malformed markup, is layout-engine behaviour and is not
modelled — success here means only that the value has the type the call
needs. -/
def asParagraphText : Json → Except String String
  | .str s => .ok s
  | _ => .error "TypeError: Paragraph text must be a string"

/-- Python `for x in v`: lists yield their elements, strings their characters,
dicts their keys; other values raise `TypeError`. -/
def pyIter : Json → Except String (List Json)
  | .arr xs => .ok xs
  | .str s => .ok (s.data.map fun c => Json.str (String.singleton c))
  | .obj fs => .ok (fs.map fun kv => Json.str kv.1)
  | _ => .error "TypeError: object is not iterable"

/-- Sequential monadic map for `Except`, modelling a Python `for` loop whose
body can raise. -/
def mapOk (f : Json → Except String (List α)) : List Json → Except String (List (List α))
  | [] => .ok []
  | x :: xs => do
    let b ← f x
    let bs ← mapOk f xs
    pure (b :: bs)

/-- The color palette defined at the top of the script. -/
inductive Color where
  | primary
  | success
  | warning
  | danger
  | info
  | neutral
  | lightBg
deriving DecidableEq

/-- Paragraph styles: the named styles from `create_styles` plus the inline
`ParagraphStyle` variants created at render time (which carry the only data
the claims depend on, their text color). -/
inductive Style where
  | logo
  | subtitle
  | sectionTitle
  | subSectionTitle
  | customBodyText
  | listItem
  | successText
  | dangerText
  | warningText
  | infoText
  | disclaimer
  | footer
  | findingTitle (c : Color)
  | conditionName
  | urgency (c : Color)
  | docName
deriving DecidableEq

/-- Layout blocks appended to the `story` list. -/
inductive Block where
  | para (style : Style) (text : String)
  | infoTable (rows : List (List String)) (classificationColor : Color)
  | spacer (w h : Nat)
  | pageBreak
  | hr (thickness : Nat) (c : Color)
deriving DecidableEq

/-- `get_classification_color` from the script: an `if`/`elif` chain of
equality comparisons against string literals (a non-string value compares
unequal to all of them, as in Python). -/
def get_classification_color (classification : Json) : Color :=
  match classification with
  | .str s =>
    if s = "normal" then .success
    else if s = "abnormal" then .warning
    else if s = "critical" then .danger
    else .neutral
  | _ => .neutral

/-- The `info_data` rows of the Report Information table.  The source passes
the looked-up values into the table unchanged; cells are recorded here via
their Python string form, and how the layout engine typesets a non-string
cell is not modelled (the well-typedness premise used for the success claim
restricts these cells to strings). -/
def infoRows (data : Json) : Except String (List (List String)) := do
  let idVal ← pyGetD data "id" (.str "N/A")
  let idStr ← pySlice8 idVal
  let fileName ← pyGetD data "fileName" (.str "Unknown")
  let uploadedAt ← pyGetD data "uploadedAt" (.str "N/A")
  let orgName ← pyGetD data "organizationName" (.str "Unknown")
  let classification ← pyGetD data "classification" (.str "pending")
  let classU ← pyUpper classification
  let reviewStatus ← pyGetD data "reviewStatus" (.str "pending")
  pure [["Report ID:", idStr ++ "..."],
        ["File Name:", pyStr fileName],
        ["Uploaded:", pyStr uploadedAt],
        ["Organization:", pyStr orgName],
        ["Classification:", classU],
        ["Review Status:", pyStr reviewStatus]]

/-- The body of the Key Findings loop (one finding). -/
def findingBlocks (finding : Json) : Except String (List Block) := do
  let sevVal ← pyGetD finding "severity" (.str "info")
  let severity ← pyUpper sevVal
  let category ← pyGetD finding "category" (.str "")
  let descVal ← pyGetD finding "description" (.str "")
  let description ← asParagraphText descVal
  let severity_color :=
    if severity = "CRITICAL" then Color.danger
    else if severity = "WARNING" then Color.warning
    else Color.neutral
  pure [Block.para (.findingTitle severity_color)
          ("<b>[" ++ severity ++ "]</b> " ++ pyStr category),
        Block.para .listItem description]

/-- The Page 1 disclaimer paragraph. -/
def disclaimerPage1 : String :=
  "<b>DISCLAIMER:</b> This AI-generated analysis is for informational purposes only and should not replace professional medical advice. Always consult with qualified healthcare providers for diagnosis and treatment decisions."

/-- Page 1: header, Report Information table, AI Analysis Summary, optional
Key Findings section, disclaimer. -/
def page1Blocks (data : Json) : Except String (List Block) := do
  let rows ← infoRows data
  let clsForColor ← pyGetD data "classification" (.str "")
  let classification_color := get_classification_color clsForColor
  let summaryVal ← pyGetD data "summary" (.str "No summary available")
  let summary ← asParagraphText summaryVal
  let detailsVal ← pyGetD data "details" (.str "No details available")
  let details ← asParagraphText detailsVal
  let findingsVal ← pyGetD data "findings" (.arr [])
  let findingsPart ←
    if findingsVal.truthy then do
      let items ← pyIter findingsVal
      let blocks ← mapOk findingBlocks items
      pure (Block.para .sectionTitle "Key Findings" :: blocks.flatten ++ [Block.spacer 1 16])
    else pure []
  pure ([Block.para .logo "MUAINA",
         Block.para .subtitle "AI-Powered Pathology Report Analysis",
         Block.hr 2 .primary,
         Block.spacer 1 12,
         Block.para .sectionTitle "Report Information",
         Block.infoTable rows classification_color,
         Block.spacer 1 16,
         Block.para .sectionTitle "AI Analysis Summary",
         Block.para .customBodyText summary,
         Block.spacer 1 8,
         Block.para .customBodyText details,
         Block.spacer 1 16]
        ++ findingsPart
        ++ [Block.spacer 1 20,
            Block.para .disclaimer disclaimerPage1])

/-- The Medical Condition subsection of Page 2 (emitted only when the
condition value is truthy). -/
def conditionBlocks (interpretation : Json) : Except String (List Block) := do
  let condition ← pyGetD interpretation "medicalCondition" (.obj [])
  if condition.truthy then do
    let nameVal ← pyGetD condition "name" (.str "Unknown")
    let descVal ← pyGetD condition "description" (.str "")
    let description ← asParagraphText descVal
    let sevVal ← pyGetD condition "severity" (.str "moderate")
    let severity ← pyUpper sevVal
    let icd ← pyGetD condition "icdCode" (.str "")
    let meta_text := "Severity: " ++ severity ++
      (if icd.truthy then " | ICD Code: " ++ pyStr icd else "")
    pure [Block.para .subSectionTitle "Medical Condition",
          Block.para .conditionName ("<b>" ++ pyStr nameVal ++ "</b>"),
          Block.para .customBodyText description,
          Block.para .listItem meta_text,
          Block.spacer 1 12]
  else pure []

/-- A bullet-list subsection of Page 2 (Important Precautions, Diet
Recommendations, Lifestyle Changes): heading plus one styled paragraph per
item, emitted only when the backing value is truthy. -/
def itemListSection (interpretation : Json) (key heading : String)
    (mk : Json → Block) : Except String (List Block) := do
  let v ← pyGetD interpretation key (.arr [])
  if v.truthy then do
    let items ← pyIter v
    pure (Block.para .subSectionTitle heading :: items.map mk ++ [Block.spacer 1 12])
  else pure []

/-- The Consultation Information subsection of Page 2. -/
def consultationBlocks (interpretation : Json) : Except String (List Block) := do
  let consultation ← pyGetD interpretation "consultation" (.obj [])
  if consultation.truthy then do
    let followUp ← pyGetD consultation "followUpTiming" (.str "N/A")
    let booking ← pyGetD consultation "bookingInfo" (.str "N/A")
    let urgVal ← pyGetD consultation "urgency" (.str "routine")
    let urgency ← pyUpper urgVal
    let urgency_color :=
      if urgency = "URGENT" then Color.danger
      else if urgency = "SOON" then Color.warning
      else Color.info
    pure [Block.para .subSectionTitle "Consultation Information",
          Block.para .customBodyText ("<b>Follow-up:</b> " ++ pyStr followUp),
          Block.para .customBodyText ("<b>How to Book:</b> " ++ pyStr booking),
          Block.para (.urgency urgency_color) ("<b>Priority:</b> " ++ urgency),
          Block.spacer 1 12]
  else pure []

/-- The combined Do\x27s and Don\x27ts subsection of Page 2. -/
def dosDontsBlocks (interpretation : Json) : Except String (List Block) := do
  let dosVal ← pyGetD interpretation "dos" (.arr [])
  let dontsVal ← pyGetD interpretation "donts" (.arr [])
  if dosVal.truthy || dontsVal.truthy then do
    let dosPart ←
      if dosVal.truthy then do
        let items ← pyIter dosVal
        pure (Block.para .customBodyText "<b>Things to Do:</b>" ::
          items.map fun item => Block.para .successText ("✓ " ++ pyStr item))
      else pure []
    let dontsPart ←
      if dontsVal.truthy then do
        let items ← pyIter dontsVal
        pure (Block.para .customBodyText "<b>Things to Avoid:</b>" ::
          items.map fun item => Block.para .dangerText ("✗ " ++ pyStr item))
      else pure []
    pure (Block.para .subSectionTitle ("Do\x27s and Don\x27ts") ::
      dosPart ++ dontsPart ++ [Block.spacer 1 12])
  else pure []

/-- The Page 2 disclaimer paragraph. -/
def disclaimerPage2 : String :=
  "This interpretation is designed to help you understand your results in simple terms. It is NOT a substitute for professional medical advice. Please discuss these findings with your healthcare provider."

/-- Page 2 (without the preceding page break): header, optional condition,
summary, optional list subsections, disclaimer. -/
def page2Blocks (interpretation : Json) : Except String (List Block) := do
  let cond ← conditionBlocks interpretation
  let summaryVal ← pyGetD interpretation "summary" (.str "")
  let summary ← asParagraphText summaryVal
  let prec ← itemListSection interpretation "precautions" "Important Precautions"
    (fun item => Block.para .warningText ("⚠ " ++ pyStr item))
  let diet ← itemListSection interpretation "diet" "Diet Recommendations"
    (fun item => Block.para .infoText ("• " ++ pyStr item))
  let consult ← consultationBlocks interpretation
  let dosDonts ← dosDontsBlocks interpretation
  let lifestyle ← itemListSection interpretation "lifestyleChanges" "Lifestyle Changes"
    (fun item => Block.para .listItem ("• " ++ pyStr item))
  pure ([Block.para .logo "MUAINA",
         Block.para .sectionTitle "Patient-Friendly Interpretation",
         Block.hr 2 .primary,
         Block.spacer 1 12]
        ++ cond
        ++ [Block.para .subSectionTitle "What This Means",
            Block.para .customBodyText summary,
            Block.spacer 1 12]
        ++ prec ++ diet ++ consult ++ dosDonts ++ lifestyle
        ++ [Block.spacer 1 20,
            Block.para .disclaimer disclaimerPage2])

/-- The block of one suggested doctor on Page 3. -/
def doctorBlocks (doctor : Json) : Except String (List Block) := do
  let name ← pyGetD doctor "name" (.str "N/A")
  let specialty ← pyGetD doctor "specialty" (.str "")
  let qualification ← pyGetD doctor "qualification" (.str "")
  let location ← pyGetD doctor "location" (.str "N/A")
  let availability ← pyGetD doctor "availability" (.str "N/A")
  let contact ← pyGetD doctor "contact" (.str "N/A")
  let fee ← pyGet doctor "consultationFee"
  pure ([Block.para .docName ("<b>" ++ pyStr name ++ "</b>"),
         Block.para .customBodyText (pyStr specialty ++ " - " ++ pyStr qualification),
         Block.para .listItem ("Location: " ++ pyStr location),
         Block.para .listItem ("Availability: " ++ pyStr availability),
         Block.para .listItem ("Contact: " ++ pyStr contact)]
        ++ (if fee.truthy then [Block.para .listItem ("Fee: " ++ pyStr fee)] else [])
        ++ [Block.spacer 1 10])

/-- The block of one specialist-consultation recommendation on Page 3. -/
def recommendationBlocks (r : Json) : Except String (List Block) := do
  let urgVal ← pyGetD r "urgency" (.str "routine")
  let urgency ← pyUpper urgVal
  let specialty ← pyGetD r "specialty" (.str "N/A")
  let reasonVal ← pyGetD r "reason" (.str "")
  let reason ← asParagraphText reasonVal
  pure [Block.para .customBodyText ("<b>" ++ pyStr specialty ++ "</b> (" ++ urgency ++ ")"),
        Block.para .listItem reason,
        Block.spacer 1 6]

/-- The Page 3 disclaimer paragraph. -/
def disclaimerPage3 : String :=
  "The suggested doctors are recommendations based on your medical needs. Availability and fees may vary. Please contact the healthcare provider directly to confirm appointment details."

/-- Page 3 with its preceding page break, emitted only when the
suggested-doctors value or the doctor-recommendations value is truthy. -/
def page3Blocks (interpretation : Json) : Except String (List Block) := do
  let doctorsVal ← pyGetD interpretation "suggestedDoctors" (.arr [])
  let recsVal ← pyGetD interpretation "doctorRecommendations" (.arr [])
  if doctorsVal.truthy || recsVal.truthy then do
    let doctorsPart ←
      if doctorsVal.truthy then do
        let doctors ← pyIter doctorsVal
        let blocks ← mapOk doctorBlocks doctors
        pure (Block.para .subSectionTitle "Suggested Doctors" :: blocks.flatten)
      else pure []
    let recsPart ←
      if recsVal.truthy then do
        let recs ← pyIter recsVal
        let blocks ← mapOk recommendationBlocks recs
        pure (Block.para .subSectionTitle "Specialist Consultations Recommended" :: blocks.flatten)
      else pure []
    pure ([Block.pageBreak,
           Block.para .logo "MUAINA",
           Block.para .sectionTitle "Recommended Healthcare Providers",
           Block.hr 2 .primary,
           Block.spacer 1 12]
          ++ doctorsPart ++ recsPart
          ++ [Block.spacer 1 20,
              Block.para .disclaimer disclaimerPage3])
  else pure []

/-- `generate_pdf` from the script: the full story handed to the layout
engine. -/
def generate_pdf (data : Json) : Except String (List Block) := do
  let p1 ← page1Blocks data
  let interpretation ← pyGet data "muainaInterpretation"
  if interpretation.truthy then do
    let p2 ← page2Blocks interpretation
    let p3 ← page3Blocks interpretation
    pure (p1 ++ Block.pageBreak :: (p2 ++ p3))
  else pure p1

/-- The observable outcome of one process run: bytes written to standard
output (`none` means no bytes at all), the text written to standard error,
and the exit code. -/
structure ProcResult where
  stdout : Option (List Block)
  stderr : String
  exitCode : Nat
deriving DecidableEq

/-- `main` from the script.  Reading standard input and `json.loads` are
library calls, so `main` is modelled over the outcome of the parse: an
`Except` carrying either the parsed value or the parser\x27s error message.
Any error raised by parsing or by `generate_pdf` reaches the single
`except` handler, which writes one line to standard error and exits 1;
otherwise the story bytes go to standard output with exit code 0. -/
def runMain (parsed : Except String Json) : ProcResult :=
  match (do
      let data ← parsed
      generate_pdf data : Except String (List Block)) with
  | .error e => ⟨none, "Error generating PDF: " ++ e ++ "\n", 1⟩
  | .ok story => ⟨some story, "", 0⟩

/-- The text of a section-title paragraph, if the block is one. -/
def sectionTitleOf : Block → Option String
  | .para .sectionTitle t => some t
  | _ => none

/-- The block itself, if it is a paragraph in the inline finding-title
style. -/
def findingTitleOf : Block → Option Block
  | .para (.findingTitle c) t => some (Block.para (.findingTitle c) t)
  | _ => none

/-- The block itself, if it is an information table. -/
def infoTableOf : Block → Option Block
  | .infoTable rows c => some (Block.infoTable rows c)
  | _ => none

/-- Texts of the section-title paragraphs of a block list, in order.  Only
the fixed page headers and section headings of the script are rendered with
the `SectionTitle` style, so these texts identify the pages and sections
present in the document. -/
def sectionTitles (bs : List Block) : List String :=
  bs.filterMap sectionTitleOf

/-- The paragraphs styled with the inline finding-title style (exactly the
title lines of Key Findings entries). -/
def findingTitleParas (bs : List Block) : List Block :=
  bs.filterMap findingTitleOf

/-- The information tables occurring in a block list. -/
def infoTables (bs : List Block) : List Block :=
  bs.filterMap infoTableOf

/-- Blocks that only occur inside sections: not a logo or section title, not
a finding title, not an info table, page break or horizontal rule. -/
def innerOnly : Block → Bool
  | .para .logo _ => false
  | .para .sectionTitle _ => false
  | .para (.findingTitle _) _ => false
  | .infoTable _ _ => false
  | .pageBreak => false
  | .hr _ _ => false
  | _ => true

/-- The document contains the Patient-Friendly Interpretation page header. -/
def hasPage2 (bs : List Block) : Bool :=
  (sectionTitles bs).contains "Patient-Friendly Interpretation"

/-- The document contains the Suggested Doctors page header. -/
def hasPage3 (bs : List Block) : Bool :=
  (sectionTitles bs).contains "Recommended Healthcare Providers"

/-- The document contains the Key Findings section heading. -/
def hasKeyFindingsHeading (bs : List Block) : Bool :=
  (sectionTitles bs).contains "Key Findings"

/-- The document contains at least one finding block. -/
def hasFindingBlock (bs : List Block) : Bool :=
  !(findingTitleParas bs).isEmpty

/-- Whether an `Except` computation succeeded. -/
def exOk {α : Type} : Except String α → Bool
  | .ok _ => true
  | .error _ => false

/-- Classification-to-color mapping in the words of the specification:
success for "normal", warning for "abnormal", danger for "critical", neutral
for any other value including an absent field. -/
def specClassificationColor : Option Json → Color
  | some (.str s) =>
    if s = "normal" then .success
    else if s = "abnormal" then .warning
    else if s = "critical" then .danger
    else .neutral
  | _ => .neutral

/-- Case-insensitive equality of strings (the "any casing of" of claim C7),
via the same ASCII upper-casing Python applies. -/
def eqCaseInsensitive (s t : String) : Bool :=
  upperStr s = upperStr t

/-- Severity-to-color mapping in the words of the specification: a
case-insensitive match of the severity against "critical" gives danger,
against "warning" gives warning, anything else neutral. -/
def claimSeverityColor (sev : String) : Color :=
  if eqCaseInsensitive sev "critical" then .danger
  else if eqCaseInsensitive sev "warning" then .warning
  else .neutral

/-- The elements of a JSON list; the empty list for any other value. -/
def arrElems : Json → List Json
  | .arr xs => xs
  | _ => []

/-- The suggested-doctors list of an input record, read from within the
`muainaInterpretation` object as the script does; an absent interpretation,
an absent field or a non-list value gives the empty list. -/
def suggestedDoctorsOf (data : Json) : List Json :=
  arrElems (jfieldD (jfield data "muainaInterpretation") "suggestedDoctors" (Json.arr []))

/-- The doctor-recommendations list of an input record, read from within the
`muainaInterpretation` object as the script does. -/
def doctorRecommendationsOf (data : Json) : List Json :=
  arrElems (jfieldD (jfield data "muainaInterpretation") "doctorRecommendations" (Json.arr []))

/-- The findings list of an input object is empty or absent. -/
def findingsEmptyOrAbsent (data : Json) : Bool :=
  match data with
  | .obj fs =>
    match lookupLast fs "findings" with
    | none => true
    | some (.arr xs) => xs.isEmpty
    | some _ => false
  | _ => false

/-- A field, when present, satisfies the given predicate; an absent field is
unconstrained. -/
def fieldOk (fs : List (String × Json)) (k : String) (p : Json → Bool) : Bool :=
  match lookupLast fs k with
  | none => true
  | some v => p v

/-- The value is a JSON string. -/
def isStrJ : Json → Bool
  | .str _ => true
  | _ => false

/-- A value the script loops over when truthy: it must then be a list whose
elements satisfy `p`; falsy values are never iterated. -/
def listOkIfTruthy (p : Json → Bool) (v : Json) : Bool :=
  if v.truthy then
    match v with
    | .arr xs => xs.all p
    | _ => false
  else true

/-- No constraint on a value. -/
def anyJson : Json → Bool := fun _ => true

/-- A finding entry: an object whose severity and description, when present,
are strings. -/
def wtFinding : Json → Bool
  | .obj fs => fieldOk fs "severity" isStrJ && fieldOk fs "description" isStrJ
  | _ => false

/-- A suggested-doctor entry: any object (all its fields are interpolated). -/
def wtDoctor : Json → Bool
  | .obj _ => true
  | _ => false

/-- A doctor-recommendation entry: an object whose urgency and reason, when
present, are strings. -/
def wtRecommendation : Json → Bool
  | .obj fs => fieldOk fs "urgency" isStrJ && fieldOk fs "reason" isStrJ
  | _ => false

/-- A medical-condition value: when truthy it must be an object whose
description and severity, when present, are strings. -/
def wtCondition (v : Json) : Bool :=
  if v.truthy then
    match v with
    | .obj fs => fieldOk fs "description" isStrJ && fieldOk fs "severity" isStrJ
    | _ => false
  else true

/-- A consultation value: when truthy it must be an object whose urgency,
when present, is a string. -/
def wtConsultation (v : Json) : Bool :=
  if v.truthy then
    match v with
    | .obj fs => fieldOk fs "urgency" isStrJ
    | _ => false
  else true

/-- An interpretation value: when truthy it must be an object whose nested
fields have the types the Page 2 and Page 3 rendering needs. -/
def wtInterpretation (v : Json) : Bool :=
  if v.truthy then
    match v with
    | .obj fs =>
      fieldOk fs "medicalCondition" wtCondition &&
      fieldOk fs "summary" isStrJ &&
      fieldOk fs "precautions" (listOkIfTruthy anyJson) &&
      fieldOk fs "diet" (listOkIfTruthy anyJson) &&
      fieldOk fs "consultation" wtConsultation &&
      fieldOk fs "dos" (listOkIfTruthy anyJson) &&
      fieldOk fs "donts" (listOkIfTruthy anyJson) &&
      fieldOk fs "lifestyleChanges" (listOkIfTruthy anyJson) &&
      fieldOk fs "suggestedDoctors" (listOkIfTruthy wtDoctor) &&
      fieldOk fs "doctorRecommendations" (listOkIfTruthy wtRecommendation)
    | _ => false
  else true

/-- The input is an object and every present field has the type the rendering
code expects (strings where sliced, upper-cased, placed as an
information-table cell or passed verbatim to `Paragraph`; lists where
iterated; objects where `.get` is applied).  Absent fields are never
constrained.  This bounds only the dynamic typing of the script itself: it
cannot bound the layout engine, which may still reject present string values
when typesetting them (markup-invalid paragraph text, content too large for
a frame). -/
def WellTyped : Json → Bool
  | .obj fs =>
    fieldOk fs "id" isStrJ &&
    fieldOk fs "fileName" isStrJ &&
    fieldOk fs "uploadedAt" isStrJ &&
    fieldOk fs "organizationName" isStrJ &&
    fieldOk fs "classification" isStrJ &&
    fieldOk fs "reviewStatus" isStrJ &&
    fieldOk fs "summary" isStrJ &&
    fieldOk fs "details" isStrJ &&
    fieldOk fs "findings" (listOkIfTruthy wtFinding) &&
    fieldOk fs "muainaInterpretation" wtInterpretation
  | _ => false

/-- The minimal input `\x7b\x7d`. -/
def emptyData : Json := Json.obj []

/-- The information-table rows rendered for the minimal input. -/
def emptyRows : List (List String) :=
  [["Report ID:", "N/A..."],
   ["File Name:", "Unknown"],
   ["Uploaded:", "N/A"],
   ["Organization:", "Unknown"],
   ["Classification:", "PENDING"],
   ["Review Status:", "pending"]]

/-- The single-page story rendered for the minimal input: every cell and
paragraph shows the documented default placeholder. -/
def emptyStory : List Block :=
  [Block.para .logo "MUAINA",
   Block.para .subtitle "AI-Powered Pathology Report Analysis",
   Block.hr 2 .primary,
   Block.spacer 1 12,
   Block.para .sectionTitle "Report Information",
   Block.infoTable emptyRows .neutral,
   Block.spacer 1 16,
   Block.para .sectionTitle "AI Analysis Summary",
   Block.para .customBodyText "No summary available",
   Block.spacer 1 8,
   Block.para .customBodyText "No details available",
   Block.spacer 1 16,
   Block.spacer 1 20,
   Block.para .disclaimer disclaimerPage1]

/-- An input whose interpretation is present but an empty object. -/
def cex1data : Json := Json.obj [("muainaInterpretation", Json.obj [])]

/-- An input object with a numeric id, which the slicing step cannot
process. -/
def cex3data : Json := Json.obj [("id", Json.num 123)]

/-- An input with an interpretation carrying only a summary. -/
def w1data : Json := Json.obj [("muainaInterpretation", Json.obj [("summary", Json.str "All good")])]

/-- Page 2 as rendered for `w1data`. -/
def w1page2 : List Block :=
  [Block.para .logo "MUAINA",
   Block.para .sectionTitle "Patient-Friendly Interpretation",
   Block.hr 2 .primary,
   Block.spacer 1 12,
   Block.para .subSectionTitle "What This Means",
   Block.para .customBodyText "All good",
   Block.spacer 1 12,
   Block.spacer 1 20,
   Block.para .disclaimer disclaimerPage2]

/-- The full story rendered for `w1data`. -/
def w1story : List Block := emptyStory ++ Block.pageBreak :: w1page2

/-- An input with an interpretation carrying one default suggested doctor. -/
def w4data : Json :=
  Json.obj [("muainaInterpretation", Json.obj [("suggestedDoctors", Json.arr [Json.obj []])])]

/-- Page 2 as rendered for `w4data` (summary defaults to the empty string). -/
def w4page2 : List Block :=
  [Block.para .logo "MUAINA",
   Block.para .sectionTitle "Patient-Friendly Interpretation",
   Block.hr 2 .primary,
   Block.spacer 1 12,
   Block.para .subSectionTitle "What This Means",
   Block.para .customBodyText "",
   Block.spacer 1 12,
   Block.spacer 1 20,
   Block.para .disclaimer disclaimerPage2]

/-- Page 3 as rendered for `w4data`. -/
def w4page3 : List Block :=
  [Block.pageBreak,
   Block.para .logo "MUAINA",
   Block.para .sectionTitle "Recommended Healthcare Providers",
   Block.hr 2 .primary,
   Block.spacer 1 12,
   Block.para .subSectionTitle "Suggested Doctors",
   Block.para .docName "<b>N/A</b>",
   Block.para .customBodyText " - ",
   Block.para .listItem "Location: N/A",
   Block.para .listItem "Availability: N/A",
   Block.para .listItem "Contact: N/A",
   Block.spacer 1 10,
   Block.spacer 1 20,
   Block.para .disclaimer disclaimerPage3]

/-- The full story rendered for `w4data`. -/
def w4story : List Block := emptyStory ++ Block.pageBreak :: (w4page2 ++ w4page3)

/-- An input with a critical classification. -/
def w6data : Json := Json.obj [("classification", Json.str "critical")]

/-- The information-table rows rendered for `w6data`. -/
def w6rows : List (List String) :=
  [["Report ID:", "N/A..."],
   ["File Name:", "Unknown"],
   ["Uploaded:", "N/A"],
   ["Organization:", "Unknown"],
   ["Classification:", "CRITICAL"],
   ["Review Status:", "pending"]]

/-- The story rendered for `w6data`. -/
def w6story : List Block :=
  [Block.para .logo "MUAINA",
   Block.para .subtitle "AI-Powered Pathology Report Analysis",
   Block.hr 2 .primary,
   Block.spacer 1 12,
   Block.para .sectionTitle "Report Information",
   Block.infoTable w6rows .danger,
   Block.spacer 1 16,
   Block.para .sectionTitle "AI Analysis Summary",
   Block.para .customBodyText "No summary available",
   Block.spacer 1 8,
   Block.para .customBodyText "No details available",
   Block.spacer 1 16,
   Block.spacer 1 20,
   Block.para .disclaimer disclaimerPage1]

/-- A finding with a mixed-casing critical severity. -/
def w7finding : Json :=
  Json.obj [("severity", Json.str "CrItIcAl"),
            ("category", Json.str "Hemoglobin"),
            ("description", Json.str "Low")]

/-- The blocks rendered for `w7finding`. -/
def w7blocks : List Block :=
  [Block.para (.findingTitle .danger) "<b>[CRITICAL]</b> Hemoglobin",
   Block.para .listItem "Low"]

/-- A doctor entry with a present but empty consultation fee. -/
def cex9doctor : Json := Json.obj [("consultationFee", Json.str "")]

/-- The blocks rendered for `cex9doctor`: no fee line. -/
def cex9blocks : List Block :=
  [Block.para .docName "<b>N/A</b>",
   Block.para .customBodyText " - ",
   Block.para .listItem "Location: N/A",
   Block.para .listItem "Availability: N/A",
   Block.para .listItem "Contact: N/A",
   Block.spacer 1 10]

/-- A doctor entry with a non-empty consultation fee. -/
def w9doctor : Json :=
  Json.obj [("name", Json.str "Dr. A"), ("consultationFee", Json.str "500 PKR")]

/-- The blocks rendered for `w9doctor`: a fee line is present. -/
def w9blocks : List Block :=
  [Block.para .docName "<b>Dr. A</b>",
   Block.para .customBodyText " - ",
   Block.para .listItem "Location: N/A",
   Block.para .listItem "Availability: N/A",
   Block.para .listItem "Contact: N/A",
   Block.para .listItem "Fee: 500 PKR",
   Block.spacer 1 10]


@[simp] theorem exbind_ok_l {α β : Type} (a : α) (f : α → Except String β) :
    (Except.ok a >>= f) = f a := rfl

@[simp] theorem exbind_err_l {α β : Type} (s : String) (f : α → Except String β) :
    ((Except.error s : Except String α) >>= f) = Except.error s := rfl

@[simp] theorem expure_eq {α : Type} (a : α) : (pure a : Except String α) = Except.ok a := rfl

theorem ebind_ok {α β : Type} {e : Except String α} {f : α → Except String β} {b : β} :
    (e >>= f) = Except.ok b ↔ ∃ a, e = Except.ok a ∧ f a = Except.ok b := by
  cases e <;> simp

theorem filterMap_none {α β : Type} (f : α → Option β) (l : List α)
    (h : ∀ a ∈ l, f a = none) : l.filterMap f = [] := by
  induction l with
  | nil => rfl
  | cons x xs ih =>
    rw [List.filterMap_cons, h x (by simp)]
    exact ih fun a ha => h a (by simp [ha])

theorem pyGetD_ok {j : Json} {k : String} {d v : Json} (h : pyGetD j k d = Except.ok v) :
    v = jfieldD j k d ∧ ∃ fs, j = Json.obj fs := by
  cases j <;> simp [pyGetD] at h
  case obj fs => exact ⟨by simp [jfieldD, jfieldOpt, h], fs, rfl⟩

theorem pyGet_ok {j : Json} {k : String} {v : Json} (h : pyGet j k = Except.ok v) :
    v = jfield j k ∧ ∃ fs, j = Json.obj fs := by
  have := pyGetD_ok h
  exact ⟨this.1, this.2⟩

theorem sectionTitles_append (a b : List Block) :
    sectionTitles (a ++ b) = sectionTitles a ++ sectionTitles b := by
  simp [sectionTitles, List.filterMap_append]

theorem findingTitleParas_append (a b : List Block) :
    findingTitleParas (a ++ b) = findingTitleParas a ++ findingTitleParas b := by
  simp [findingTitleParas, List.filterMap_append]

theorem infoTables_append (a b : List Block) :
    infoTables (a ++ b) = infoTables a ++ infoTables b := by
  simp [infoTables, List.filterMap_append]

theorem extracts_none_of_innerOnly {b : Block} (h : innerOnly b = true) :
    sectionTitleOf b = none ∧ findingTitleOf b = none ∧ infoTableOf b = none := by
  cases b with
  | para s t =>
    cases s <;> first
      | exact ⟨rfl, rfl, rfl⟩
      | exact Bool.noConfusion h
  | infoTable rows c => exact Bool.noConfusion h
  | spacer w h' => exact ⟨rfl, rfl, rfl⟩
  | pageBreak => exact Bool.noConfusion h
  | hr t c => exact Bool.noConfusion h

theorem extracts_nil_of_innerOnly {bs : List Block} (h : ∀ b ∈ bs, innerOnly b = true) :
    sectionTitles bs = [] ∧ findingTitleParas bs = [] ∧ infoTables bs = [] := by
  refine ⟨filterMap_none _ _ fun b hb => ?_, filterMap_none _ _ fun b hb => ?_,
    filterMap_none _ _ fun b hb => ?_⟩
  · exact (extracts_none_of_innerOnly (h b hb)).1
  · exact (extracts_none_of_innerOnly (h b hb)).2.1
  · exact (extracts_none_of_innerOnly (h b hb)).2.2

theorem mapOk_ok_mem {α : Type} {f : Json → Except String (List α)} :
    ∀ {l : List Json} {out : List (List α)}, mapOk f l = Except.ok out →
      ∀ bs ∈ out, ∃ x ∈ l, f x = Except.ok bs := by
  intro l
  induction l with
  | nil =>
    intro out h bs hbs
    simp [mapOk] at h
    subst h
    simp at hbs
  | cons x xs ih =>
    intro out h bs hbs
    unfold mapOk at h
    rw [ebind_ok] at h
    obtain ⟨b, hb, h⟩ := h
    rw [ebind_ok] at h
    obtain ⟨rest, hrest, h⟩ := h
    simp only [expure_eq, Except.ok.injEq] at h
    subst h
    rcases List.mem_cons.mp hbs with hbs | hbs
    · exact ⟨x, by simp, hbs ▸ hb⟩
    · obtain ⟨y, hy, hfy⟩ := ih hrest bs hbs
      exact ⟨y, by simp [hy], hfy⟩

theorem mapOk_ok_head {α : Type} {f : Json → Except String (List α)} {x : Json}
    {xs : List Json} {out : List (List α)} (h : mapOk f (x :: xs) = Except.ok out) :
    ∃ bs, f x = Except.ok bs := by
  unfold mapOk at h
  rw [ebind_ok] at h
  obtain ⟨b, hb, _⟩ := h
  exact ⟨b, hb⟩

theorem mapOk_isOk {α : Type} {f : Json → Except String (List α)} :
    ∀ {l : List Json}, (∀ x ∈ l, exOk (f x) = true) → exOk (mapOk f l) = true := by
  intro l
  induction l with
  | nil => intro _; rfl
  | cons x xs ih =>
    intro h
    have hx := h x (by simp)
    unfold mapOk
    cases hfx : f x with
    | error e => rw [hfx] at hx; simp [exOk] at hx
    | ok b =>
      have hxs := ih fun y hy => h y (by simp [hy])
      cases hrest : mapOk f xs with
      | error e => rw [hrest] at hxs; simp [exOk] at hxs
      | ok rest => simp [hfx, hrest, exOk]

theorem extracts_nil_flatten {ls : List (List Block)}
    (h : ∀ bs ∈ ls, sectionTitles bs = [] ∧ findingTitleParas bs = [] ∧ infoTables bs = []) :
    sectionTitles ls.flatten = [] ∧ findingTitleParas ls.flatten = [] ∧
      infoTables ls.flatten = [] := by
  induction ls with
  | nil => exact ⟨rfl, rfl, rfl⟩
  | cons bs rest ih =>
    have h1 := h bs (by simp)
    have h2 := ih fun l hl => h l (by simp [hl])
    simp [List.flatten_cons, sectionTitles_append, findingTitleParas_append,
      infoTables_append, h1.1, h1.2.1, h1.2.2, h2.1, h2.2.1, h2.2.2]

theorem extracts_nil_map (items : List Json) (mk : Json → Block)
    (hmk : ∀ j, innerOnly (mk j) = true) :
    sectionTitles (items.map mk) = [] ∧ findingTitleParas (items.map mk) = [] ∧
      infoTables (items.map mk) = [] := by
  refine ⟨?_, ?_, ?_⟩ <;>
    simp only [sectionTitles, findingTitleParas, infoTables, List.filterMap_map]
  · exact filterMap_none _ _ fun a _ => by
      simpa using (extracts_none_of_innerOnly (hmk a)).1
  · exact filterMap_none _ _ fun a _ => by
      simpa using (extracts_none_of_innerOnly (hmk a)).2.1
  · exact filterMap_none _ _ fun a _ => by
      simpa using (extracts_none_of_innerOnly (hmk a)).2.2

theorem extracts_nil_mapOk {f : Json → Except String (List Block)} {l : List Json}
    {out : List (List Block)} (h : mapOk f l = Except.ok out)
    (hf : ∀ x bs, f x = Except.ok bs →
      sectionTitles bs = [] ∧ findingTitleParas bs = [] ∧ infoTables bs = []) :
    sectionTitles out.flatten = [] ∧ findingTitleParas out.flatten = [] ∧
      infoTables out.flatten = [] := by
  refine extracts_nil_flatten fun bs hbs => ?_
  obtain ⟨x, _, hx⟩ := mapOk_ok_mem h bs hbs
  exact hf x bs hx

theorem conditionBlocks_extracts {i : Json} {bs : List Block}
    (h : conditionBlocks i = Except.ok bs) :
    sectionTitles bs = [] ∧ findingTitleParas bs = [] ∧ infoTables bs = [] := by
  unfold conditionBlocks at h
  rw [ebind_ok] at h
  obtain ⟨cond, hcond, h⟩ := h
  try simp only [] at h
  split at h
  · rw [ebind_ok] at h
    obtain ⟨nameVal, h1, h⟩ := h
    rw [ebind_ok] at h
    obtain ⟨descVal, h2, h⟩ := h
    rw [ebind_ok] at h
    obtain ⟨description, h3, h⟩ := h
    rw [ebind_ok] at h
    obtain ⟨sevVal, h4, h⟩ := h
    rw [ebind_ok] at h
    obtain ⟨severity, h5, h⟩ := h
    rw [ebind_ok] at h
    obtain ⟨icd, h6, h⟩ := h
    simp only [expure_eq, Except.ok.injEq] at h
    subst h
    simp [sectionTitles, findingTitleParas, infoTables, sectionTitleOf,
      findingTitleOf, infoTableOf]
  · simp only [expure_eq, Except.ok.injEq] at h
    subst h
    simp [sectionTitles, findingTitleParas, infoTables]

theorem itemListSection_extracts {i : Json} {key heading : String} {mk : Json → Block}
    {bs : List Block} (h : itemListSection i key heading mk = Except.ok bs)
    (hmk : ∀ j, innerOnly (mk j) = true) :
    sectionTitles bs = [] ∧ findingTitleParas bs = [] ∧ infoTables bs = [] := by
  unfold itemListSection at h
  rw [ebind_ok] at h
  obtain ⟨v, hv, h⟩ := h
  try simp only [] at h
  split at h
  · rw [ebind_ok] at h
    obtain ⟨items, hitems, h⟩ := h
    simp only [expure_eq, Except.ok.injEq] at h
    subst h
    have hmap := extracts_nil_map items mk hmk
    simp only [sectionTitles, findingTitleParas, infoTables] at hmap ⊢
    simp [List.filterMap_cons, List.filterMap_append, sectionTitleOf,
      findingTitleOf, infoTableOf, hmap.1, hmap.2.1, hmap.2.2]
  · simp only [expure_eq, Except.ok.injEq] at h
    subst h
    simp [sectionTitles, findingTitleParas, infoTables]

theorem consultationBlocks_extracts {i : Json} {bs : List Block}
    (h : consultationBlocks i = Except.ok bs) :
    sectionTitles bs = [] ∧ findingTitleParas bs = [] ∧ infoTables bs = [] := by
  unfold consultationBlocks at h
  rw [ebind_ok] at h
  obtain ⟨consultation, hc, h⟩ := h
  try simp only [] at h
  split at h
  · rw [ebind_ok] at h
    obtain ⟨followUp, h1, h⟩ := h
    rw [ebind_ok] at h
    obtain ⟨booking, h2, h⟩ := h
    rw [ebind_ok] at h
    obtain ⟨urgVal, h3, h⟩ := h
    rw [ebind_ok] at h
    obtain ⟨urgency, h4, h⟩ := h
    simp only [expure_eq, Except.ok.injEq] at h
    subst h
    simp [sectionTitles, findingTitleParas, infoTables, sectionTitleOf,
      findingTitleOf, infoTableOf]
  · simp only [expure_eq, Except.ok.injEq] at h
    subst h
    simp [sectionTitles, findingTitleParas, infoTables]

theorem dosDontsBlocks_extracts {i : Json} {bs : List Block}
    (h : dosDontsBlocks i = Except.ok bs) :
    sectionTitles bs = [] ∧ findingTitleParas bs = [] ∧ infoTables bs = [] := by
  unfold dosDontsBlocks at h
  rw [ebind_ok] at h
  obtain ⟨dosVal, hdos, h⟩ := h
  rw [ebind_ok] at h
  obtain ⟨dontsVal, hdonts, h⟩ := h
  try simp only [] at h
  split at h
  · split at h
    · rw [ebind_ok] at h
      obtain ⟨dositems, hdi, h⟩ := h
      simp only [expure_eq, exbind_ok_l] at h
      split at h
      · rw [ebind_ok] at h
        obtain ⟨dontsitems, hdti, h⟩ := h
        simp only [expure_eq, exbind_ok_l, Except.ok.injEq] at h
        subst h
        have h1 := extracts_nil_map dositems
          (fun item => Block.para .successText ("✓ " ++ pyStr item)) (fun j => rfl)
        have h2 := extracts_nil_map dontsitems
          (fun item => Block.para .dangerText ("✗ " ++ pyStr item)) (fun j => rfl)
        simp only [sectionTitles, findingTitleParas, infoTables] at h1 h2 ⊢
        simp [List.filterMap_cons, List.filterMap_append, sectionTitleOf,
          findingTitleOf, infoTableOf, h1.1, h1.2.1, h1.2.2, h2.1, h2.2.1, h2.2.2]
      · simp only [expure_eq, exbind_ok_l, Except.ok.injEq] at h
        subst h
        have h1 := extracts_nil_map dositems
          (fun item => Block.para .successText ("✓ " ++ pyStr item)) (fun j => rfl)
        simp only [sectionTitles, findingTitleParas, infoTables] at h1 ⊢
        simp [List.filterMap_cons, List.filterMap_append, sectionTitleOf,
          findingTitleOf, infoTableOf, h1.1, h1.2.1, h1.2.2]
    · simp only [expure_eq, exbind_ok_l] at h
      split at h
      · rw [ebind_ok] at h
        obtain ⟨dontsitems, hdti, h⟩ := h
        simp only [expure_eq, exbind_ok_l, Except.ok.injEq] at h
        subst h
        have h2 := extracts_nil_map dontsitems
          (fun item => Block.para .dangerText ("✗ " ++ pyStr item)) (fun j => rfl)
        simp only [sectionTitles, findingTitleParas, infoTables] at h2 ⊢
        simp [List.filterMap_cons, List.filterMap_append, sectionTitleOf,
          findingTitleOf, infoTableOf, h2.1, h2.2.1, h2.2.2]
      · simp only [expure_eq, exbind_ok_l, Except.ok.injEq] at h
        subst h
        simp [sectionTitles, findingTitleParas, infoTables, sectionTitleOf,
          findingTitleOf, infoTableOf]
  · simp only [expure_eq, Except.ok.injEq] at h
    subst h
    simp [sectionTitles, findingTitleParas, infoTables]

theorem filterMap_flatten_nil {α β : Type} (f : α → Option β) :
    ∀ (ls : List (List α)), (∀ l ∈ ls, l.filterMap f = []) → ls.flatten.filterMap f = [] := by
  intro ls
  induction ls with
  | nil => intro _; rfl
  | cons x xs ih =>
    intro h
    rw [List.flatten_cons, List.filterMap_append, h x (by simp),
      ih fun l hl => h l (by simp [hl])]
    rfl

theorem doctorBlocks_extracts {d : Json} {bs : List Block}
    (h : doctorBlocks d = Except.ok bs) :
    sectionTitles bs = [] ∧ findingTitleParas bs = [] ∧ infoTables bs = [] := by
  unfold doctorBlocks at h
  rw [ebind_ok] at h
  obtain ⟨name, h1, h⟩ := h
  rw [ebind_ok] at h
  obtain ⟨specialty, h2, h⟩ := h
  rw [ebind_ok] at h
  obtain ⟨qualification, h3, h⟩ := h
  rw [ebind_ok] at h
  obtain ⟨location, h4, h⟩ := h
  rw [ebind_ok] at h
  obtain ⟨availability, h5, h⟩ := h
  rw [ebind_ok] at h
  obtain ⟨contact, h6, h⟩ := h
  rw [ebind_ok] at h
  obtain ⟨fee, h7, h⟩ := h
  simp only [expure_eq, Except.ok.injEq] at h
  subst h
  cases hft : fee.truthy <;>
    simp [hft, sectionTitles, findingTitleParas, infoTables, List.filterMap_cons,
      List.filterMap_append, sectionTitleOf, findingTitleOf, infoTableOf]

theorem recommendationBlocks_extracts {r : Json} {bs : List Block}
    (h : recommendationBlocks r = Except.ok bs) :
    sectionTitles bs = [] ∧ findingTitleParas bs = [] ∧ infoTables bs = [] := by
  unfold recommendationBlocks at h
  rw [ebind_ok] at h
  obtain ⟨urgVal, h1, h⟩ := h
  rw [ebind_ok] at h
  obtain ⟨urgency, h2, h⟩ := h
  rw [ebind_ok] at h
  obtain ⟨specialty, h3, h⟩ := h
  rw [ebind_ok] at h
  obtain ⟨reasonVal, h4, h⟩ := h
  rw [ebind_ok] at h
  obtain ⟨reason, h5, h⟩ := h
  simp only [expure_eq, Except.ok.injEq] at h
  subst h
  simp [sectionTitles, findingTitleParas, infoTables, List.filterMap_cons,
    sectionTitleOf, findingTitleOf, infoTableOf]

theorem findingBlocks_extracts {f : Json} {bs : List Block}
    (h : findingBlocks f = Except.ok bs) :
    sectionTitles bs = [] ∧ infoTables bs = [] := by
  unfold findingBlocks at h
  rw [ebind_ok] at h
  obtain ⟨sevVal, h1, h⟩ := h
  rw [ebind_ok] at h
  obtain ⟨severity, h2, h⟩ := h
  rw [ebind_ok] at h
  obtain ⟨category, h3, h⟩ := h
  rw [ebind_ok] at h
  obtain ⟨descVal, h4, h⟩ := h
  rw [ebind_ok] at h
  obtain ⟨description, h5, h⟩ := h
  simp only [expure_eq, Except.ok.injEq] at h
  subst h
  simp [sectionTitles, infoTables, List.filterMap_cons, sectionTitleOf, infoTableOf]

theorem findings_flatten_extracts {l : List Json} {out : List (List Block)}
    (h : mapOk findingBlocks l = Except.ok out) :
    sectionTitles out.flatten = [] ∧ infoTables out.flatten = [] := by
  constructor
  · refine filterMap_flatten_nil _ out fun bs hbs => ?_
    obtain ⟨x, -, hx⟩ := mapOk_ok_mem h bs hbs
    exact (findingBlocks_extracts hx).1
  · refine filterMap_flatten_nil _ out fun bs hbs => ?_
    obtain ⟨x, -, hx⟩ := mapOk_ok_mem h bs hbs
    exact (findingBlocks_extracts hx).2

theorem infoRows_head {data : Json} {rows : List (List String)}
    (h : infoRows data = Except.ok rows) :
    ∃ s : String, pyGetD data "id" (Json.str "N/A") = Except.ok (Json.str s) ∧
      rows.head? = some ["Report ID:", takeChars s 8 ++ "..."] := by
  unfold infoRows at h
  rw [ebind_ok] at h
  obtain ⟨idVal, hid, h⟩ := h
  rw [ebind_ok] at h
  obtain ⟨idStr, hslice, h⟩ := h
  rw [ebind_ok] at h
  obtain ⟨fileName, h3, h⟩ := h
  rw [ebind_ok] at h
  obtain ⟨uploadedAt, h4, h⟩ := h
  rw [ebind_ok] at h
  obtain ⟨orgName, h5, h⟩ := h
  rw [ebind_ok] at h
  obtain ⟨classification, h6, h⟩ := h
  rw [ebind_ok] at h
  obtain ⟨classU, h7, h⟩ := h
  rw [ebind_ok] at h
  obtain ⟨reviewStatus, h8, h⟩ := h
  simp only [expure_eq, Except.ok.injEq] at h
  subst h
  cases idVal <;> simp [pySlice8] at hslice
  case str s =>
    subst hslice
    exact ⟨s, hid, rfl⟩

theorem page1_shape {data : Json} {p1 : List Block} (h : page1Blocks data = Except.ok p1) :
    (∃ rows, infoRows data = Except.ok rows ∧
      infoTables p1 = [Block.infoTable rows
        (get_classification_color (jfieldD data "classification" (Json.str "")))]) ∧
    sectionTitles p1 = "Report Information" :: "AI Analysis Summary" ::
      (if (jfieldD data "findings" (Json.arr [])).truthy then ["Key Findings"] else []) ∧
    ((jfieldD data "findings" (Json.arr [])).truthy = false → findingTitleParas p1 = []) := by
  unfold page1Blocks at h
  rw [ebind_ok] at h
  obtain ⟨rows, hrows, h⟩ := h
  rw [ebind_ok] at h
  obtain ⟨clsForColor, hcls, h⟩ := h
  rw [ebind_ok] at h
  obtain ⟨summaryVal, hsv, h⟩ := h
  rw [ebind_ok] at h
  obtain ⟨summary, hsum, h⟩ := h
  rw [ebind_ok] at h
  obtain ⟨detailsVal, hdv, h⟩ := h
  rw [ebind_ok] at h
  obtain ⟨details, hdet, h⟩ := h
  rw [ebind_ok] at h
  obtain ⟨findingsVal, hfv, h⟩ := h
  have hclsEq := (pyGetD_ok hcls).1
  have hfvEq := (pyGetD_ok hfv).1
  subst hclsEq
  subst hfvEq
  try simp only [] at h
  split at h
  · rename_i hft
    rw [ebind_ok] at h
    obtain ⟨items, hitems, h⟩ := h
    rw [ebind_ok] at h
    obtain ⟨blocks, hblocks, h⟩ := h
    simp only [expure_eq, exbind_ok_l, Except.ok.injEq] at h
    subst h
    have hfl := findings_flatten_extracts hblocks
    refine ⟨⟨rows, hrows, ?_⟩, ?_, ?_⟩
    · simp only [infoTables] at hfl ⊢
      simp [List.filterMap_cons, List.filterMap_append, infoTableOf, hfl.2]
    · rw [if_pos hft]
      simp only [sectionTitles] at hfl ⊢
      simp [List.filterMap_cons, List.filterMap_append, sectionTitleOf, hfl.1]
    · intro hcontra
      rw [hft] at hcontra
      exact absurd hcontra (by simp)
  · rename_i hft
    have hff : (jfieldD data "findings" (Json.arr [])).truthy = false := by
      simpa using hft
    simp only [expure_eq, exbind_ok_l, Except.ok.injEq] at h
    subst h
    refine ⟨⟨rows, hrows, ?_⟩, ?_, fun _ => ?_⟩
    · simp [infoTables, List.filterMap_cons, List.filterMap_append, infoTableOf]
    · rw [if_neg (by simp [hff])]
      simp [sectionTitles, List.filterMap_cons, List.filterMap_append, sectionTitleOf]
    · simp [findingTitleParas, List.filterMap_cons, List.filterMap_append, findingTitleOf]

theorem page2_shape {i : Json} {p2 : List Block} (h : page2Blocks i = Except.ok p2) :
    sectionTitles p2 = ["Patient-Friendly Interpretation"] ∧
    findingTitleParas p2 = [] ∧ infoTables p2 = [] := by
  unfold page2Blocks at h
  rw [ebind_ok] at h
  obtain ⟨cond, hcond, h⟩ := h
  rw [ebind_ok] at h
  obtain ⟨summaryVal, hsv, h⟩ := h
  rw [ebind_ok] at h
  obtain ⟨summary, hsum, h⟩ := h
  rw [ebind_ok] at h
  obtain ⟨prec, hprec, h⟩ := h
  rw [ebind_ok] at h
  obtain ⟨diet, hdiet, h⟩ := h
  rw [ebind_ok] at h
  obtain ⟨consult, hconsult, h⟩ := h
  rw [ebind_ok] at h
  obtain ⟨dosDonts, hdd, h⟩ := h
  rw [ebind_ok] at h
  obtain ⟨lifestyle, hls, h⟩ := h
  simp only [expure_eq, Except.ok.injEq] at h
  subst h
  have hc := conditionBlocks_extracts hcond
  have hp := itemListSection_extracts hprec (fun j => rfl)
  have hdi := itemListSection_extracts hdiet (fun j => rfl)
  have hcs := consultationBlocks_extracts hconsult
  have hdd2 := dosDontsBlocks_extracts hdd
  have hl2 := itemListSection_extracts hls (fun j => rfl)
  simp only [sectionTitles, findingTitleParas, infoTables] at hc hp hdi hcs hdd2 hl2 ⊢
  refine ⟨?_, ?_, ?_⟩ <;>
    simp [List.filterMap_cons, List.filterMap_append, sectionTitleOf, findingTitleOf,
      infoTableOf, hc.1, hc.2.1, hc.2.2, hp.1, hp.2.1, hp.2.2, hdi.1, hdi.2.1,
      hdi.2.2, hcs.1, hcs.2.1, hcs.2.2, hdd2.1, hdd2.2.1, hdd2.2.2, hl2.1,
      hl2.2.1, hl2.2.2]

theorem loop_val_arr {f : Json → Except String (List Block)} {v : Json}
    {items : List Json} {out : List (List Block)}
    (hstr : ∀ (t : String) (bs : List Block), f (Json.str t) ≠ Except.ok bs)
    (htr : v.truthy = true) (hiter : pyIter v = Except.ok items)
    (hmap : mapOk f items = Except.ok out) :
    ∃ xs, v = Json.arr xs ∧ xs ≠ [] := by
  cases v with
  | arr xs =>
    refine ⟨xs, rfl, ?_⟩
    simp [Json.truthy] at htr
    intro hnil
    simp [hnil] at htr
  | str s =>
    simp only [pyIter, Except.ok.injEq] at hiter
    subst hiter
    simp [Json.truthy] at htr
    cases hd : s.data with
    | nil => simp [hd] at htr
    | cons c cs =>
      rw [hd] at hmap
      simp only [List.map_cons] at hmap
      obtain ⟨bs, hbs⟩ := mapOk_ok_head hmap
      exact absurd hbs (hstr _ _)
  | obj fs =>
    simp only [pyIter, Except.ok.injEq] at hiter
    subst hiter
    simp [Json.truthy] at htr
    cases hd : fs with
    | nil => simp [hd] at htr
    | cons kv rest =>
      rw [hd] at hmap
      simp only [List.map_cons] at hmap
      obtain ⟨bs, hbs⟩ := mapOk_ok_head hmap
      exact absurd hbs (hstr _ _)
  | num n => simp [pyIter] at hiter
  | bool b => simp [pyIter] at hiter
  | null => simp [Json.truthy] at htr

theorem page3_shape {i : Json} {p3 : List Block} (h : page3Blocks i = Except.ok p3) :
    sectionTitles p3 =
      (if (jfieldD i "suggestedDoctors" (Json.arr [])).truthy ||
          (jfieldD i "doctorRecommendations" (Json.arr [])).truthy
       then ["Recommended Healthcare Providers"] else []) ∧
    findingTitleParas p3 = [] ∧ infoTables p3 = [] ∧
    ((jfieldD i "suggestedDoctors" (Json.arr [])).truthy = true →
      ∃ xs, jfieldD i "suggestedDoctors" (Json.arr []) = Json.arr xs ∧ xs ≠ []) ∧
    ((jfieldD i "doctorRecommendations" (Json.arr [])).truthy = true →
      ∃ xs, jfieldD i "doctorRecommendations" (Json.arr []) = Json.arr xs ∧ xs ≠ []) := by
  unfold page3Blocks at h
  rw [ebind_ok] at h
  obtain ⟨doctorsVal, hdv, h⟩ := h
  rw [ebind_ok] at h
  obtain ⟨recsVal, hrv, h⟩ := h
  have hdvEq := (pyGetD_ok hdv).1
  have hrvEq := (pyGetD_ok hrv).1
  subst hdvEq
  subst hrvEq
  try simp only [] at h
  split at h
  · rename_i hcond
    split at h
    · rename_i hdt
      rw [ebind_ok] at h
      obtain ⟨doctors, hdocs, h⟩ := h
      rw [ebind_ok] at h
      obtain ⟨dblocks, hdblocks, h⟩ := h
      simp only [expure_eq, exbind_ok_l] at h
      have harr := loop_val_arr
        (fun t bs hh => by simp [doctorBlocks, pyGetD] at hh) hdt hdocs hdblocks
      have hde := extracts_nil_mapOk hdblocks (fun x bs hx => doctorBlocks_extracts hx)
      split at h
      · rename_i hrt
        rw [ebind_ok] at h
        obtain ⟨recs, hrecs, h⟩ := h
        rw [ebind_ok] at h
        obtain ⟨rblocks, hrblocks, h⟩ := h
        simp only [expure_eq, exbind_ok_l, Except.ok.injEq] at h
        subst h
        have hrarr := loop_val_arr
          (fun t bs hh => by simp [recommendationBlocks, pyGetD] at hh) hrt hrecs hrblocks
        have hre := extracts_nil_mapOk hrblocks (fun x bs hx => recommendationBlocks_extracts hx)
        rw [if_pos hcond]
        simp only [sectionTitles, findingTitleParas, infoTables] at hde hre ⊢
        refine ⟨?_, ?_, ?_, fun _ => harr, fun _ => hrarr⟩ <;>
          simp [List.filterMap_cons, List.filterMap_append, sectionTitleOf,
            findingTitleOf, infoTableOf, hde.1, hde.2.1, hde.2.2, hre.1,
            hre.2.1, hre.2.2]
      · rename_i hrt
        simp only [expure_eq, exbind_ok_l, Except.ok.injEq] at h
        subst h
        rw [if_pos hcond]
        simp only [sectionTitles, findingTitleParas, infoTables] at hde ⊢
        refine ⟨?_, ?_, ?_, fun _ => harr, fun htr => absurd htr hrt⟩ <;>
          simp [List.filterMap_cons, List.filterMap_append, sectionTitleOf,
            findingTitleOf, infoTableOf, hde.1, hde.2.1, hde.2.2]
    · rename_i hdt
      simp only [expure_eq, exbind_ok_l] at h
      split at h
      · rename_i hrt
        rw [ebind_ok] at h
        obtain ⟨recs, hrecs, h⟩ := h
        rw [ebind_ok] at h
        obtain ⟨rblocks, hrblocks, h⟩ := h
        simp only [expure_eq, exbind_ok_l, Except.ok.injEq] at h
        subst h
        have hrarr := loop_val_arr
          (fun t bs hh => by simp [recommendationBlocks, pyGetD] at hh) hrt hrecs hrblocks
        have hre := extracts_nil_mapOk hrblocks (fun x bs hx => recommendationBlocks_extracts hx)
        rw [if_pos hcond]
        simp only [sectionTitles, findingTitleParas, infoTables] at hre ⊢
        refine ⟨?_, ?_, ?_, fun htr => absurd htr hdt, fun _ => hrarr⟩ <;>
          simp [List.filterMap_cons, List.filterMap_append, sectionTitleOf,
            findingTitleOf, infoTableOf, hre.1, hre.2.1, hre.2.2]
      · rename_i hrt
        exfalso
        rcases Bool.or_eq_true_iff.mp hcond with hx | hx
        · exact hdt hx
        · exact hrt hx
  · rename_i hcond
    simp only [expure_eq, Except.ok.injEq] at h
    subst h
    rw [if_neg hcond]
    refine ⟨rfl, rfl, rfl, fun htr => ?_, fun htr => ?_⟩
    · exact absurd (Bool.or_eq_true_iff.mpr (Or.inl htr)) hcond
    · exact absurd (Bool.or_eq_true_iff.mpr (Or.inr htr)) hcond

theorem generate_pdf_shape {data : Json} {story : List Block}
    (h : generate_pdf data = Except.ok story) :
    ∃ p1, page1Blocks data = Except.ok p1 ∧
      (((jfield data "muainaInterpretation").truthy = false ∧ story = p1) ∨
       ((jfield data "muainaInterpretation").truthy = true ∧
         ∃ p2 p3, page2Blocks (jfield data "muainaInterpretation") = Except.ok p2 ∧
           page3Blocks (jfield data "muainaInterpretation") = Except.ok p3 ∧
           story = p1 ++ Block.pageBreak :: (p2 ++ p3))) := by
  unfold generate_pdf at h
  rw [ebind_ok] at h
  obtain ⟨p1, hp1, h⟩ := h
  rw [ebind_ok] at h
  obtain ⟨interp, hi, h⟩ := h
  have hiEq := (pyGet_ok hi).1
  subst hiEq
  try simp only [] at h
  split at h
  · rename_i htr
    rw [ebind_ok] at h
    obtain ⟨p2, hp2, h⟩ := h
    rw [ebind_ok] at h
    obtain ⟨p3, hp3, h⟩ := h
    simp only [expure_eq, Except.ok.injEq] at h
    subst h
    exact ⟨p1, hp1, Or.inr ⟨htr, p2, p3, hp2, hp3, rfl⟩⟩
  · rename_i htr
    simp only [expure_eq, Except.ok.injEq] at h
    subst h
    exact ⟨p1, hp1, Or.inl ⟨by simpa using htr, rfl⟩⟩

theorem contains_iff_mem {l : List String} {t : String} :
    l.contains t = true ↔ t ∈ l := by
  simp [List.contains, List.elem_eq_mem]

theorem contains_false_iff {l : List String} {t : String} :
    l.contains t = false ↔ t ∉ l := by
  rw [← contains_iff_mem]
  cases l.contains t <;> simp

theorem sectionTitles_pageBreak_cons (bs : List Block) :
    sectionTitles (Block.pageBreak :: bs) = sectionTitles bs := by
  simp [sectionTitles, List.filterMap_cons, sectionTitleOf]

/-- C10: whenever the rendered document contains the Suggested Doctors page
(Page 3), it also contains the Patient-Friendly Interpretation page (Page 2):
the suggested-doctors and doctor-recommendations lists are read only from
within the `muainaInterpretation` object, so Page 3 is only ever emitted
inside the branch that has already emitted Page 2. -/
theorem c10_page3_implies_page2 (data : Json) (story : List Block)
    (h : generate_pdf data = Except.ok story) :
    hasPage3 story = true → hasPage2 story = true := by
  intro h3
  obtain ⟨p1, hp1, hcase⟩ := generate_pdf_shape h
  have h1 := (page1_shape hp1).2.1
  rcases hcase with ⟨hf, rfl⟩ | ⟨ht, p2, p3, hp2, hp3, rfl⟩
  · exfalso
    rw [hasPage3, contains_iff_mem, h1] at h3
    cases hft : (jfieldD data "findings" (Json.arr [])).truthy <;>
      simp [hft] at h3
  · have h2 := (page2_shape hp2).1
    rw [hasPage2, contains_iff_mem, sectionTitles_append, sectionTitles_pageBreak_cons,
      sectionTitles_append, h2]
    simp

/-- C10 witness: a concrete record with one suggested doctor renders both
Page 3 and Page 2. -/
theorem c10_witness :
    generate_pdf w4data = Except.ok w4story ∧ hasPage3 w4story = true ∧
    hasPage2 w4story = true :=
  ⟨rfl, rfl, c10_page3_implies_page2 w4data w4story rfl rfl⟩

/-- C1 (amended): the rendered document contains the Patient-Friendly
Interpretation page (Page 2) iff the `muainaInterpretation` field is present
with a truthy value; a present but empty (or otherwise falsy) interpretation
suppresses the page. -/
theorem c1_page2_iff_truthy_interpretation (data : Json) (story : List Block)
    (h : generate_pdf data = Except.ok story) :
    hasPage2 story = (jfield data "muainaInterpretation").truthy := by
  obtain ⟨p1, hp1, hcase⟩ := generate_pdf_shape h
  have h1 := (page1_shape hp1).2.1
  rcases hcase with ⟨hf, rfl⟩ | ⟨ht, p2, p3, hp2, hp3, rfl⟩
  · rw [hf, hasPage2, contains_false_iff, h1]
    cases hft : (jfieldD data "findings" (Json.arr [])).truthy <;>
      simp [hft]
  · rw [ht, hasPage2, contains_iff_mem, sectionTitles_append,
      sectionTitles_pageBreak_cons, sectionTitles_append, (page2_shape hp2).1]
    simp

/-- C1 counterexample: the claim as stated is false.  For the input whose
`muainaInterpretation` field is present and non-null but the empty object,
the rendered document does not contain Page 2. -/
theorem c1_counterexample :
    jfieldOpt cex1data "muainaInterpretation" = some (Json.obj []) ∧
    some (Json.obj []) ≠ some Json.null ∧
    generate_pdf cex1data = Except.ok emptyStory ∧
    hasPage2 emptyStory = false := by
  refine ⟨rfl, by simp, rfl, rfl⟩

/-- C1 witness: a concrete record with a truthy interpretation renders
Page 2. -/
theorem c1_witness :
    generate_pdf w1data = Except.ok w1story ∧
    hasPage2 w1story = (jfield w1data "muainaInterpretation").truthy ∧
    (jfield w1data "muainaInterpretation").truthy = true :=
  ⟨rfl, c1_page2_iff_truthy_interpretation w1data w1story rfl, rfl⟩

theorem jfieldD_falsy {j : Json} (hf : j.truthy = false) (k : String) (d : Json) :
    jfieldD j k d = d := by
  cases j <;> simp [jfieldD, jfieldOpt]
  case obj fs =>
    simp only [Json.truthy, Bool.not_eq_false'] at hf
    rw [List.isEmpty_iff.mp hf]
    simp [lookupLast]

theorem arrElems_falsy {v : Json} (hf : v.truthy = false) :
    arrElems v = [] := by
  cases v <;> try rfl
  case arr xs =>
    simp only [Json.truthy, Bool.not_eq_false'] at hf
    exact List.isEmpty_iff.mp hf

/-- C4: the rendered document contains the Suggested Doctors page (Page 3)
iff the suggestedDoctors list or the doctorRecommendations list (both read
from within the `muainaInterpretation` object) is non-empty. -/
theorem c4_page3_iff_doctor_lists_nonempty (data : Json) (story : List Block)
    (h : generate_pdf data = Except.ok story) :
    hasPage3 story = (!(suggestedDoctorsOf data).isEmpty ||
      !(doctorRecommendationsOf data).isEmpty) := by
  obtain ⟨p1, hp1, hcase⟩ := generate_pdf_shape h
  have h1 := (page1_shape hp1).2.1
  rcases hcase with ⟨hf, rfl⟩ | ⟨ht, p2, p3, hp2, hp3, rfl⟩
  · have hs : suggestedDoctorsOf data = [] := by
      unfold suggestedDoctorsOf
      rw [jfieldD_falsy hf]
      rfl
    have hr : doctorRecommendationsOf data = [] := by
      unfold doctorRecommendationsOf
      rw [jfieldD_falsy hf]
      rfl
    have hP3 : hasPage3 story = false := by
      rw [hasPage3, contains_false_iff, h1]
      cases hft : (jfieldD data "findings" (Json.arr [])).truthy <;> simp [hft]
    simp [hP3, hs, hr]
  · obtain ⟨hst3, -, -, himp_d, himp_r⟩ := page3_shape hp3
    have hd : (jfieldD (jfield data "muainaInterpretation") "suggestedDoctors"
        (Json.arr [])).truthy = !(suggestedDoctorsOf data).isEmpty := by
      cases hdt : (jfieldD (jfield data "muainaInterpretation") "suggestedDoctors"
          (Json.arr [])).truthy with
      | true =>
        obtain ⟨xs, hxs, hne⟩ := himp_d hdt
        unfold suggestedDoctorsOf
        rw [hxs]
        simpa [arrElems] using hne
      | false =>
        unfold suggestedDoctorsOf
        rw [arrElems_falsy hdt]
        rfl
    have hr : (jfieldD (jfield data "muainaInterpretation") "doctorRecommendations"
        (Json.arr [])).truthy = !(doctorRecommendationsOf data).isEmpty := by
      cases hrt : (jfieldD (jfield data "muainaInterpretation") "doctorRecommendations"
          (Json.arr [])).truthy with
      | true =>
        obtain ⟨xs, hxs, hne⟩ := himp_r hrt
        unfold doctorRecommendationsOf
        rw [hxs]
        simpa [arrElems] using hne
      | false =>
        unfold doctorRecommendationsOf
        rw [arrElems_falsy hrt]
        rfl
    rw [← hd, ← hr]
    cases hc : ((jfieldD (jfield data "muainaInterpretation") "suggestedDoctors"
          (Json.arr [])).truthy ||
        (jfieldD (jfield data "muainaInterpretation") "doctorRecommendations"
          (Json.arr [])).truthy) with
    | true =>
      simp only [hc, if_pos] at hst3
      rw [hasPage3, contains_iff_mem, sectionTitles_append, sectionTitles_pageBreak_cons,
        sectionTitles_append, hst3]
      simp
    | false =>
      simp only [hc, Bool.false_eq_true, if_false] at hst3
      rw [hasPage3, contains_false_iff, sectionTitles_append, sectionTitles_pageBreak_cons,
        sectionTitles_append, hst3, (page2_shape hp2).1, h1]
      cases hft : (jfieldD data "findings" (Json.arr [])).truthy <;> simp [hft]

/-- C4 witness: a concrete record with one suggested doctor renders Page 3,
and the suggested-doctors list is indeed non-empty. -/
theorem c4_witness :
    generate_pdf w4data = Except.ok w4story ∧
    hasPage3 w4story = (!(suggestedDoctorsOf w4data).isEmpty ||
      !(doctorRecommendationsOf w4data).isEmpty) ∧
    (suggestedDoctorsOf w4data).isEmpty = false :=
  ⟨rfl, c4_page3_iff_doctor_lists_nonempty w4data w4story rfl, rfl⟩

theorem findingTitleParas_pageBreak_cons (bs : List Block) :
    findingTitleParas (Block.pageBreak :: bs) = findingTitleParas bs := by
  simp [findingTitleParas, List.filterMap_cons, findingTitleOf]

theorem infoTables_pageBreak_cons (bs : List Block) :
    infoTables (Block.pageBreak :: bs) = infoTables bs := by
  simp [infoTables, List.filterMap_cons, infoTableOf]

/-- C8: when the findings list of the input is empty or absent, the rendered
document contains neither the Key Findings section heading nor any finding
block. -/
theorem c8_no_findings_section (data : Json) (story : List Block)
    (h : generate_pdf data = Except.ok story)
    (hf : findingsEmptyOrAbsent data = true) :
    hasKeyFindingsHeading story = false ∧ hasFindingBlock story = false := by
  obtain ⟨p1, hp1, hcase⟩ := generate_pdf_shape h
  obtain ⟨-, h1st, h1ft⟩ := page1_shape hp1
  have hfv : (jfieldD data "findings" (Json.arr [])).truthy = false := by
    unfold findingsEmptyOrAbsent at hf
    cases data <;> simp at hf
    case obj fs =>
      rw [jfieldD, jfieldOpt]
      cases hl : lookupLast fs "findings" with
      | none => rfl
      | some v =>
        rw [hl] at hf
        cases v <;> simp_all [Json.truthy]
  rcases hcase with ⟨hfalsy, heq⟩ | ⟨ht, p2, p3, hp2, hp3, heq⟩
  · subst heq
    constructor
    · rw [hasKeyFindingsHeading, contains_false_iff, h1st, if_neg (by simp [hfv])]
      simp
    · rw [hasFindingBlock, h1ft hfv]
      rfl
  · subst heq
    obtain ⟨h2st, h2ft, -⟩ := page2_shape hp2
    obtain ⟨h3st, h3ft, -, -, -⟩ := page3_shape hp3
    constructor
    · rw [hasKeyFindingsHeading, contains_false_iff, sectionTitles_append,
        sectionTitles_pageBreak_cons, sectionTitles_append, h1st, h2st, h3st,
        if_neg (by simp [hfv])]
      split <;> simp
    · rw [hasFindingBlock, findingTitleParas_append, findingTitleParas_pageBreak_cons,
        findingTitleParas_append, h1ft hfv, h2ft, h3ft]
      rfl

/-- C8 witness: the minimal input has no findings and its document shows no
Key Findings heading and no finding block. -/
theorem c8_witness :
    findingsEmptyOrAbsent emptyData = true ∧
    generate_pdf emptyData = Except.ok emptyStory ∧
    hasKeyFindingsHeading emptyStory = false ∧ hasFindingBlock emptyStory = false :=
  ⟨rfl, rfl, (c8_no_findings_section emptyData emptyStory rfl rfl).1,
    (c8_no_findings_section emptyData emptyStory rfl rfl).2⟩

theorem infoTables_story {data : Json} {story : List Block}
    (h : generate_pdf data = Except.ok story) :
    ∃ rows0, infoRows data = Except.ok rows0 ∧
      infoTables story = [Block.infoTable rows0
        (get_classification_color (jfieldD data "classification" (Json.str "")))] := by
  obtain ⟨p1, hp1, hcase⟩ := generate_pdf_shape h
  obtain ⟨⟨rows0, hrows0, h1it⟩, -, -⟩ := page1_shape hp1
  refine ⟨rows0, hrows0, ?_⟩
  rcases hcase with ⟨-, heq⟩ | ⟨-, p2, p3, hp2, hp3, heq⟩
  · subst heq
    exact h1it
  · subst heq
    rw [infoTables_append, infoTables_pageBreak_cons, infoTables_append, h1it,
      (page2_shape hp2).2.2, (page3_shape hp3).2.2.1]
    rfl

/-- C5: the Report ID cell of the information table always shows the first 8
characters of the id string (the whole string when it has fewer than 8
characters; the default "N/A" when the field is absent) with the suffix
"..." appended, including for short ids. -/
theorem c5_report_id_cell (data : Json) (story : List Block)
    (rows : List (List String)) (c : Color)
    (h : generate_pdf data = Except.ok story)
    (ht : Block.infoTable rows c ∈ story) :
    ∃ s : String, pyGetD data "id" (Json.str "N/A") = Except.ok (Json.str s) ∧
      rows.head? = some ["Report ID:", takeChars s 8 ++ "..."] := by
  obtain ⟨rows0, hrows0, hit⟩ := infoTables_story h
  have hmem : Block.infoTable rows c ∈ infoTables story := by
    rw [infoTables]
    exact List.mem_filterMap.mpr ⟨_, ht, rfl⟩
  rw [hit] at hmem
  simp only [List.mem_singleton, Block.infoTable.injEq] at hmem
  obtain ⟨hrowsEq, -⟩ := hmem
  subst hrowsEq
  exact infoRows_head hrows0

/-- C5 witness: for the minimal input, the table is in the story and the
Report ID cell shows "N/A..." (the default sliced to 8 characters with the
ellipsis appended). -/
theorem c5_witness :
    generate_pdf emptyData = Except.ok emptyStory ∧
    Block.infoTable emptyRows Color.neutral ∈ emptyStory ∧
    ∃ s : String, pyGetD emptyData "id" (Json.str "N/A") = Except.ok (Json.str s) ∧
      emptyRows.head? = some ["Report ID:", takeChars s 8 ++ "..."] :=
  ⟨rfl, by decide,
    c5_report_id_cell emptyData emptyStory emptyRows Color.neutral rfl (by decide)⟩

theorem classification_color_spec (data : Json) :
    get_classification_color (jfieldD data "classification" (Json.str "")) =
      specClassificationColor (jfieldOpt data "classification") := by
  rw [jfieldD]
  cases ho : jfieldOpt data "classification" with
  | none => rfl
  | some v => cases v <;> rfl

/-- C6: the text color applied to the Classification cell of the information
table is success for "normal", warning for "abnormal", danger for
"critical", and neutral for any other value, including an absent field. -/
theorem c6_classification_cell_color (data : Json) (story : List Block)
    (rows : List (List String)) (c : Color)
    (h : generate_pdf data = Except.ok story)
    (ht : Block.infoTable rows c ∈ story) :
    c = specClassificationColor (jfieldOpt data "classification") := by
  obtain ⟨rows0, hrows0, hit⟩ := infoTables_story h
  have hmem : Block.infoTable rows c ∈ infoTables story := by
    rw [infoTables]
    exact List.mem_filterMap.mpr ⟨_, ht, rfl⟩
  rw [hit] at hmem
  simp only [List.mem_singleton, Block.infoTable.injEq] at hmem
  obtain ⟨-, hcEq⟩ := hmem
  rw [hcEq, classification_color_spec]

/-- C6 witness: for a record classified "critical" the Classification cell
is rendered with the danger color. -/
theorem c6_witness :
    generate_pdf w6data = Except.ok w6story ∧
    Block.infoTable w6rows Color.danger ∈ w6story ∧
    Color.danger = specClassificationColor (jfieldOpt w6data "classification") :=
  ⟨rfl, by decide,
    c6_classification_cell_color w6data w6story w6rows Color.danger rfl (by decide)⟩

/-- C7: the title line of every finding is colored by a case-insensitive
mapping on the severity value: any casing of "critical" selects the danger
color, any casing of "warning" selects the warning color, and every other
severity (including the default "info" used when the field is absent)
selects the neutral color. -/
theorem c7_finding_severity_color (f : Json) (sev : String) (bs : List Block)
    (hs : pyGetD f "severity" (Json.str "info") = Except.ok (Json.str sev))
    (h : findingBlocks f = Except.ok bs) :
    ∃ t d, bs = [Block.para (.findingTitle (claimSeverityColor sev)) t,
      Block.para .listItem d] := by
  unfold findingBlocks at h
  rw [ebind_ok] at h
  obtain ⟨sevVal, h1, h⟩ := h
  rw [h1] at hs
  have hv : sevVal = Json.str sev := Except.ok.inj hs
  subst hv
  rw [ebind_ok] at h
  obtain ⟨severity, h2, h⟩ := h
  have hup : severity = upperStr sev := (Except.ok.inj h2).symm
  subst hup
  rw [ebind_ok] at h
  obtain ⟨category, h3, h⟩ := h
  rw [ebind_ok] at h
  obtain ⟨descVal, h4, h⟩ := h
  rw [ebind_ok] at h
  obtain ⟨description, h5, h⟩ := h
  simp only [expure_eq, Except.ok.injEq] at h
  subst h
  have hcrit : upperStr "critical" = "CRITICAL" := by decide
  have hwarn : upperStr "warning" = "WARNING" := by decide
  have hcolor : (if upperStr sev = "CRITICAL" then Color.danger
      else if upperStr sev = "WARNING" then Color.warning else Color.neutral) =
      claimSeverityColor sev := by
    by_cases hc : upperStr sev = "CRITICAL"
    · simp [claimSeverityColor, eqCaseInsensitive, hcrit, hc]
    · by_cases hw : upperStr sev = "WARNING"
      · simp [claimSeverityColor, eqCaseInsensitive, hcrit, hwarn, hc, hw]
      · simp [claimSeverityColor, eqCaseInsensitive, hcrit, hwarn, hc, hw]
  exact ⟨_, _, by rw [← hcolor]⟩

/-- C7 witness: a finding with severity "CrItIcAl" gets the danger color on
its title line. -/
theorem c7_witness :
    pyGetD w7finding "severity" (Json.str "info") = Except.ok (Json.str "CrItIcAl") ∧
    findingBlocks w7finding = Except.ok w7blocks ∧
    claimSeverityColor "CrItIcAl" = Color.danger ∧
    ∃ t d, w7blocks = [Block.para (.findingTitle (claimSeverityColor "CrItIcAl")) t,
      Block.para .listItem d] :=
  ⟨rfl, rfl, by decide, c7_finding_severity_color w7finding "CrItIcAl" w7blocks rfl rfl⟩

theorem string_data_append (s t : String) : (s ++ t).data = s.data ++ t.data := by
  cases s
  cases t
  rfl

theorem fee_ne_location (t u : String) : "Fee: " ++ t ≠ "Location: " ++ u := by
  intro hcontra
  have hd := congrArg String.data hcontra
  rw [string_data_append, string_data_append] at hd
  have h1 : ("Fee: ").data = 'F' :: 'e' :: 'e' :: ':' :: ' ' :: [] := rfl
  have h2 : ("Location: ").data =
    'L' :: 'o' :: 'c' :: 'a' :: 't' :: 'i' :: 'o' :: 'n' :: ':' :: ' ' :: [] := rfl
  rw [h1, h2] at hd
  simp only [List.cons_append] at hd
  injection hd with hF _
  exact absurd hF (by decide)

theorem fee_ne_availability (t u : String) : "Fee: " ++ t ≠ "Availability: " ++ u := by
  intro hcontra
  have hd := congrArg String.data hcontra
  rw [string_data_append, string_data_append] at hd
  have h1 : ("Fee: ").data = 'F' :: 'e' :: 'e' :: ':' :: ' ' :: [] := rfl
  have h2 : ("Availability: ").data =
    'A' :: 'v' :: 'a' :: 'i' :: 'l' :: 'a' :: 'b' :: 'i' :: 'l' :: 'i' :: 't' :: 'y'
      :: ':' :: ' ' :: [] := rfl
  rw [h1, h2] at hd
  simp only [List.cons_append] at hd
  injection hd with hF _
  exact absurd hF (by decide)

theorem fee_ne_contact (t u : String) : "Fee: " ++ t ≠ "Contact: " ++ u := by
  intro hcontra
  have hd := congrArg String.data hcontra
  rw [string_data_append, string_data_append] at hd
  have h1 : ("Fee: ").data = 'F' :: 'e' :: 'e' :: ':' :: ' ' :: [] := rfl
  have h2 : ("Contact: ").data =
    'C' :: 'o' :: 'n' :: 't' :: 'a' :: 'c' :: 't' :: ':' :: ' ' :: [] := rfl
  rw [h1, h2] at hd
  simp only [List.cons_append] at hd
  injection hd with hF _
  exact absurd hF (by decide)

/-- C9 (amended): the block of a doctor contains a "Fee:" line iff the
consultationFee value of that doctor is present and truthy; a present but
falsy fee (empty string, zero, null, false) omits the line exactly like an
absent field. -/
theorem c9_fee_line_iff_truthy (doctor : Json) (bs : List Block)
    (h : doctorBlocks doctor = Except.ok bs) :
    (∃ t, Block.para Style.listItem ("Fee: " ++ t) ∈ bs) ↔
      (jfield doctor "consultationFee").truthy = true := by
  unfold doctorBlocks at h
  rw [ebind_ok] at h
  obtain ⟨name, h1, h⟩ := h
  rw [ebind_ok] at h
  obtain ⟨specialty, h2, h⟩ := h
  rw [ebind_ok] at h
  obtain ⟨qualification, h3, h⟩ := h
  rw [ebind_ok] at h
  obtain ⟨location, h4, h⟩ := h
  rw [ebind_ok] at h
  obtain ⟨availability, h5, h⟩ := h
  rw [ebind_ok] at h
  obtain ⟨contact, h6, h⟩ := h
  rw [ebind_ok] at h
  obtain ⟨fee, h7, h⟩ := h
  have hfeeEq := (pyGet_ok h7).1
  subst hfeeEq
  simp only [expure_eq, Except.ok.injEq] at h
  subst h
  constructor
  · rintro ⟨t, hmem⟩
    cases hft : (jfield doctor "consultationFee").truthy with
    | true => rfl
    | false =>
      exfalso
      simp only [hft, Bool.false_eq_true, if_false, List.append_nil] at hmem
      simp only [List.mem_append, List.mem_cons, List.not_mem_nil, or_false] at hmem
      rcases hmem with ((hq | hq | hq | hq | hq) | hq)
      · exact Block.noConfusion hq fun hstyle _ => Style.noConfusion hstyle
      · exact Block.noConfusion hq fun hstyle _ => Style.noConfusion hstyle
      · exact fee_ne_location t (pyStr location)
          (Block.noConfusion hq fun _ htext => htext)
      · exact fee_ne_availability t (pyStr availability)
          (Block.noConfusion hq fun _ htext => htext)
      · exact fee_ne_contact t (pyStr contact)
          (Block.noConfusion hq fun _ htext => htext)
      · exact Block.noConfusion hq
  · intro hft
    refine ⟨pyStr (jfield doctor "consultationFee"), ?_⟩
    simp [hft]

/-- C9 counterexample: the claim as stated is false: a doctor entry whose
consultationFee field is present but the empty string renders no fee line at
all. -/
theorem c9_counterexample :
    jfieldOpt cex9doctor "consultationFee" = some (Json.str "") ∧
    doctorBlocks cex9doctor = Except.ok cex9blocks ∧
    ¬ ∃ t, Block.para Style.listItem ("Fee: " ++ t) ∈ cex9blocks := by
  refine ⟨rfl, rfl, ?_⟩
  rintro ⟨t, hmem⟩
  simp only [cex9blocks, List.mem_cons, List.not_mem_nil, or_false] at hmem
  rcases hmem with hq | hq | hq | hq | hq | hq
  · exact Block.noConfusion hq fun hstyle _ => Style.noConfusion hstyle
  · exact Block.noConfusion hq fun hstyle _ => Style.noConfusion hstyle
  · exact fee_ne_location t "N/A" (Block.noConfusion hq fun _ htext => htext)
  · exact fee_ne_availability t "N/A" (Block.noConfusion hq fun _ htext => htext)
  · exact fee_ne_contact t "N/A" (Block.noConfusion hq fun _ htext => htext)
  · exact Block.noConfusion hq

/-- C9 witness: a doctor with a non-empty fee gets a fee line, matching the
truthiness of the field. -/
theorem c9_witness :
    doctorBlocks w9doctor = Except.ok w9blocks ∧
    (jfield w9doctor "consultationFee").truthy = true ∧
    ((∃ t, Block.para Style.listItem ("Fee: " ++ t) ∈ w9blocks) ↔
      (jfield w9doctor "consultationFee").truthy = true) :=
  ⟨rfl, rfl, c9_fee_line_iff_truthy w9doctor w9blocks rfl⟩

/-- C2: for every invocation whose standard input fails to parse as JSON, or
whose rendering step raises, the process writes no bytes to standard output,
writes the single line "Error generating PDF: <message>" to standard error,
and exits with code 1. -/
theorem c2_failure_no_output_error_line (p : Except String Json)
    (h : (∃ e, p = Except.error e) ∨
      (∃ d e, p = Except.ok d ∧ generate_pdf d = Except.error e)) :
    (runMain p).stdout = none ∧ (runMain p).exitCode = 1 ∧
    ∃ msg, (runMain p).stderr = "Error generating PDF: " ++ msg ++ "\n" := by
  rcases h with ⟨e, rfl⟩ | ⟨d, e, rfl, hgen⟩
  · exact ⟨rfl, rfl, e, rfl⟩
  · unfold runMain
    simp only [exbind_ok_l, hgen]
    exact ⟨trivial, trivial, e, rfl⟩

/-- C2 witness: a parse failure produces no standard-output bytes, exit code
1, and one error line. -/
theorem c2_witness :
    (runMain (Except.error "Expecting value: line 1 column 1 (char 0)")).stdout = none ∧
    (runMain (Except.error "Expecting value: line 1 column 1 (char 0)")).exitCode = 1 ∧
    ∃ msg, (runMain (Except.error "Expecting value: line 1 column 1 (char 0)")).stderr =
      "Error generating PDF: " ++ msg ++ "\n" :=
  c2_failure_no_output_error_line _ (Or.inl ⟨_, rfl⟩)

theorem pyGetD_obj_ok (fs : List (String × Json)) (k : String) (d : Json) :
    pyGetD (Json.obj fs) k d = Except.ok (jfieldD (Json.obj fs) k d) := by
  simp [pyGetD, jfieldD, jfieldOpt]

theorem exOk_bind' {α β : Type} {e : Except String α} {f : α → Except String β}
    (he : exOk e = true) (hf : ∀ a, e = Except.ok a → exOk (f a) = true) :
    exOk (e >>= f) = true := by
  cases e with
  | error s => simp [exOk] at he
  | ok a =>
    simp only [exbind_ok_l]
    exact hf a rfl

theorem jfieldD_str {fs : List (String × Json)} {k : String} (dflt : String)
    (h : fieldOk fs k isStrJ = true) :
    ∃ s, jfieldD (Json.obj fs) k (Json.str dflt) = Json.str s := by
  rw [jfieldD, jfieldOpt]
  unfold fieldOk at h
  cases hl : lookupLast fs k with
  | none => exact ⟨dflt, rfl⟩
  | some v =>
    rw [hl] at h
    cases v <;> simp [isStrJ] at h
    case str s => exact ⟨s, rfl⟩

theorem fieldOk_jfieldD {fs : List (String × Json)} {k : String} {p : Json → Bool}
    {d : Json} (h : fieldOk fs k p = true) (hd : p d = true) :
    p (jfieldD (Json.obj fs) k d) = true := by
  rw [jfieldD, jfieldOpt]
  unfold fieldOk at h
  cases hl : lookupLast fs k with
  | none => exact hd
  | some v =>
    rw [hl] at h
    exact h

theorem listOk_truthy {p : Json → Bool} {v : Json}
    (h : listOkIfTruthy p v = true) (ht : v.truthy = true) :
    ∃ xs, v = Json.arr xs ∧ xs.all p = true := by
  unfold listOkIfTruthy at h
  rw [ht] at h
  simp at h
  cases v with
  | arr xs => exact ⟨xs, rfl, h⟩
  | null => simp at h
  | bool b => simp at h
  | num n => simp at h
  | str s => simp at h
  | obj fs => simp at h

theorem findingBlocks_ok {f : Json} (h : wtFinding f = true) :
    exOk (findingBlocks f) = true := by
  cases f <;> simp [wtFinding] at h
  case obj fs =>
    obtain ⟨hsev, hdesc⟩ := h
    obtain ⟨s1, hs1⟩ := jfieldD_str "info" hsev
    obtain ⟨s2, hs2⟩ := jfieldD_str "" hdesc
    unfold findingBlocks
    simp [pyGetD_obj_ok, hs1, hs2, pyUpper, asParagraphText, exOk]

theorem conditionBlocks_ok {fs : List (String × Json)}
    (hcond : wtCondition (jfieldD (Json.obj fs) "medicalCondition" (Json.obj [])) = true) :
    exOk (conditionBlocks (Json.obj fs)) = true := by
  unfold conditionBlocks
  rw [pyGetD_obj_ok]
  simp only [exbind_ok_l]
  cases hct : (jfieldD (Json.obj fs) "medicalCondition" (Json.obj [])).truthy with
  | false => simp [hct, exOk]
  | true =>
    unfold wtCondition at hcond
    rw [hct] at hcond
    simp only [if_true] at hcond
    cases hcv : jfieldD (Json.obj fs) "medicalCondition" (Json.obj []) with
    | obj gs =>
      rw [hcv] at hcond
      simp only [Bool.and_eq_true] at hcond
      obtain ⟨hdesc, hsev⟩ := hcond
      obtain ⟨s1, hs1⟩ := jfieldD_str "" hdesc
      obtain ⟨s2, hs2⟩ := jfieldD_str "moderate" hsev
      simp [hct, hcv, pyGetD_obj_ok, hs1, hs2, pyUpper, asParagraphText, exOk]
    | null => rw [hcv] at hcond; simp at hcond
    | bool b => rw [hcv] at hcond; simp at hcond
    | num n => rw [hcv] at hcond; simp at hcond
    | str s => rw [hcv] at hcond; simp at hcond
    | arr xs => rw [hcv] at hcond; simp at hcond

theorem itemListSection_ok {fs : List (String × Json)} {key heading : String}
    {mk : Json → Block}
    (h : listOkIfTruthy anyJson (jfieldD (Json.obj fs) key (Json.arr [])) = true) :
    exOk (itemListSection (Json.obj fs) key heading mk) = true := by
  unfold itemListSection
  rw [pyGetD_obj_ok]
  simp only [exbind_ok_l]
  cases hvt : (jfieldD (Json.obj fs) key (Json.arr [])).truthy with
  | false => simp [hvt, exOk]
  | true =>
    obtain ⟨xs, hxs, -⟩ := listOk_truthy h hvt
    simp [hvt, hxs, pyIter, exOk]

theorem consultationBlocks_ok {fs : List (String × Json)}
    (hc : wtConsultation (jfieldD (Json.obj fs) "consultation" (Json.obj [])) = true) :
    exOk (consultationBlocks (Json.obj fs)) = true := by
  unfold consultationBlocks
  rw [pyGetD_obj_ok]
  simp only [exbind_ok_l]
  cases hct : (jfieldD (Json.obj fs) "consultation" (Json.obj [])).truthy with
  | false => simp [hct, exOk]
  | true =>
    unfold wtConsultation at hc
    rw [hct] at hc
    simp only [if_true] at hc
    cases hcv : jfieldD (Json.obj fs) "consultation" (Json.obj []) with
    | obj gs =>
      rw [hcv] at hc
      simp only [] at hc
      obtain ⟨s2, hs2⟩ := jfieldD_str "routine" hc
      simp [hct, hcv, pyGetD_obj_ok, hs2, pyUpper, exOk]
    | null => rw [hcv] at hc; simp at hc
    | bool b => rw [hcv] at hc; simp at hc
    | num n => rw [hcv] at hc; simp at hc
    | str s => rw [hcv] at hc; simp at hc
    | arr xs => rw [hcv] at hc; simp at hc

theorem dosDontsBlocks_ok {fs : List (String × Json)}
    (hdos : listOkIfTruthy anyJson (jfieldD (Json.obj fs) "dos" (Json.arr [])) = true)
    (hdonts : listOkIfTruthy anyJson (jfieldD (Json.obj fs) "donts" (Json.arr [])) = true) :
    exOk (dosDontsBlocks (Json.obj fs)) = true := by
  unfold dosDontsBlocks
  rw [pyGetD_obj_ok]
  simp only [exbind_ok_l]
  rw [pyGetD_obj_ok]
  simp only [exbind_ok_l]
  cases hdt : (jfieldD (Json.obj fs) "dos" (Json.arr [])).truthy with
  | true =>
    obtain ⟨xs, hxs, -⟩ := listOk_truthy hdos hdt
    cases hdd : (jfieldD (Json.obj fs) "donts" (Json.arr [])).truthy with
    | true =>
      obtain ⟨ys, hys, -⟩ := listOk_truthy hdonts hdd
      simp [hdt, hdd, hxs, hys, pyIter, exOk]
    | false => simp [hdt, hdd, hxs, pyIter, exOk]
  | false =>
    cases hdd : (jfieldD (Json.obj fs) "donts" (Json.arr [])).truthy with
    | true =>
      obtain ⟨ys, hys, -⟩ := listOk_truthy hdonts hdd
      simp [hdt, hdd, hys, pyIter, exOk]
    | false => simp [hdt, hdd, exOk]

theorem doctorBlocks_ok {d : Json} (h : wtDoctor d = true) :
    exOk (doctorBlocks d) = true := by
  cases d <;> simp [wtDoctor] at h
  case obj fs =>
    unfold doctorBlocks
    simp [pyGetD_obj_ok, pyGet, exOk]

theorem recommendationBlocks_ok {r : Json} (h : wtRecommendation r = true) :
    exOk (recommendationBlocks r) = true := by
  cases r <;> simp [wtRecommendation] at h
  case obj fs =>
    obtain ⟨hurg, hreason⟩ := h
    obtain ⟨s1, hs1⟩ := jfieldD_str "routine" hurg
    obtain ⟨s2, hs2⟩ := jfieldD_str "" hreason
    unfold recommendationBlocks
    simp [pyGetD_obj_ok, hs1, hs2, pyUpper, asParagraphText, exOk]

theorem page1Blocks_ok {fs : List (String × Json)}
    (hid : fieldOk fs "id" isStrJ = true)
    (hcls : fieldOk fs "classification" isStrJ = true)
    (hsum : fieldOk fs "summary" isStrJ = true)
    (hdet : fieldOk fs "details" isStrJ = true)
    (hfind : fieldOk fs "findings" (listOkIfTruthy wtFinding) = true) :
    exOk (page1Blocks (Json.obj fs)) = true := by
  obtain ⟨s1, hs1⟩ := jfieldD_str "N/A" hid
  obtain ⟨s2, hs2⟩ := jfieldD_str "pending" hcls
  obtain ⟨s3, hs3⟩ := jfieldD_str "No summary available" hsum
  obtain ⟨s4, hs4⟩ := jfieldD_str "No details available" hdet
  have hfd := fieldOk_jfieldD (d := Json.arr []) hfind (by decide)
  unfold page1Blocks infoRows
  cases hft : (jfieldD (Json.obj fs) "findings" (Json.arr [])).truthy with
  | false =>
    simp [pyGetD_obj_ok, hs1, hs2, hs3, hs4, hft, pySlice8, pyUpper,
      asParagraphText, exOk]
  | true =>
    obtain ⟨xs, hxs, hall⟩ := listOk_truthy hfd hft
    have hmap : exOk (mapOk findingBlocks xs) = true :=
      mapOk_isOk fun x hx => findingBlocks_ok (List.all_eq_true.mp hall x hx)
    rw [hxs] at hft
    simp only [pyGetD_obj_ok, exbind_ok_l, hs1, hs2, hs3, hs4, hxs, pySlice8,
      pyUpper, asParagraphText, expure_eq, hft, if_true, pyIter]
    refine exOk_bind' hmap fun blocks _ => ?_
    rfl

theorem page2Blocks_ok {gs : List (String × Json)}
    (hcond : fieldOk gs "medicalCondition" wtCondition = true)
    (hsum : fieldOk gs "summary" isStrJ = true)
    (hprec : fieldOk gs "precautions" (listOkIfTruthy anyJson) = true)
    (hdiet : fieldOk gs "diet" (listOkIfTruthy anyJson) = true)
    (hcons : fieldOk gs "consultation" wtConsultation = true)
    (hdos : fieldOk gs "dos" (listOkIfTruthy anyJson) = true)
    (hdonts : fieldOk gs "donts" (listOkIfTruthy anyJson) = true)
    (hls : fieldOk gs "lifestyleChanges" (listOkIfTruthy anyJson) = true) :
    exOk (page2Blocks (Json.obj gs)) = true := by
  obtain ⟨s0, hs0⟩ := jfieldD_str "" hsum
  unfold page2Blocks
  refine exOk_bind' (conditionBlocks_ok (fieldOk_jfieldD hcond (by decide)))
    fun c1 _ => ?_
  rw [pyGetD_obj_ok]
  refine exOk_bind' rfl fun sv hsv => ?_
  have hsvEq : sv = jfieldD (Json.obj gs) "summary" (Json.str "") :=
    (Except.ok.inj hsv).symm
  subst hsvEq
  rw [hs0]
  refine exOk_bind' rfl fun s hs' => ?_
  refine exOk_bind' (itemListSection_ok (fieldOk_jfieldD hprec (by decide)))
    fun b1 _ => ?_
  refine exOk_bind' (itemListSection_ok (fieldOk_jfieldD hdiet (by decide)))
    fun b2 _ => ?_
  refine exOk_bind' (consultationBlocks_ok (fieldOk_jfieldD hcons (by decide)))
    fun b3 _ => ?_
  refine exOk_bind' (dosDontsBlocks_ok (fieldOk_jfieldD hdos (by decide))
    (fieldOk_jfieldD hdonts (by decide))) fun b4 _ => ?_
  refine exOk_bind' (itemListSection_ok (fieldOk_jfieldD hls (by decide)))
    fun b5 _ => ?_
  rfl

theorem page3Blocks_ok {gs : List (String × Json)}
    (hdocs : fieldOk gs "suggestedDoctors" (listOkIfTruthy wtDoctor) = true)
    (hrecs : fieldOk gs "doctorRecommendations" (listOkIfTruthy wtRecommendation) = true) :
    exOk (page3Blocks (Json.obj gs)) = true := by
  have hd := fieldOk_jfieldD (d := Json.arr []) hdocs (by decide)
  have hr := fieldOk_jfieldD (d := Json.arr []) hrecs (by decide)
  unfold page3Blocks
  rw [pyGetD_obj_ok]
  simp only [exbind_ok_l]
  rw [pyGetD_obj_ok]
  simp only [exbind_ok_l]
  cases hdt : (jfieldD (Json.obj gs) "suggestedDoctors" (Json.arr [])).truthy with
  | true =>
    obtain ⟨xs, hxs, hall⟩ := listOk_truthy hd hdt
    have hmapd : exOk (mapOk doctorBlocks xs) = true :=
      mapOk_isOk fun x hx => doctorBlocks_ok (List.all_eq_true.mp hall x hx)
    rw [hxs] at hdt
    cases hrt : (jfieldD (Json.obj gs) "doctorRecommendations" (Json.arr [])).truthy with
    | true =>
      obtain ⟨ys, hys, hally⟩ := listOk_truthy hr hrt
      have hmapr : exOk (mapOk recommendationBlocks ys) = true :=
        mapOk_isOk fun y hy => recommendationBlocks_ok (List.all_eq_true.mp hally y hy)
      rw [hys] at hrt
      simp only [hxs, hys, hdt, hrt, pyIter, Bool.or_self, if_true, exbind_ok_l,
        expure_eq]
      refine exOk_bind' hmapd fun dbl _ => ?_
      try simp only [exbind_ok_l, expure_eq]
      refine exOk_bind' hmapr fun rbl _ => ?_
      rfl
    | false =>
      simp only [hxs, hdt, hrt, pyIter, Bool.or_false, if_true, exbind_ok_l,
        expure_eq]
      refine exOk_bind' hmapd fun dbl _ => ?_
      rfl
  | false =>
    cases hrt : (jfieldD (Json.obj gs) "doctorRecommendations" (Json.arr [])).truthy with
    | true =>
      obtain ⟨ys, hys, hally⟩ := listOk_truthy hr hrt
      have hmapr : exOk (mapOk recommendationBlocks ys) = true :=
        mapOk_isOk fun y hy => recommendationBlocks_ok (List.all_eq_true.mp hally y hy)
      rw [hys] at hrt
      simp only [hys, hdt, hrt, pyIter, Bool.false_or, if_true, exbind_ok_l,
        expure_eq]
      refine exOk_bind' hmapr fun rbl _ => ?_
      rfl
    | false =>
      simp [hdt, hrt, exOk]

theorem wtInterpretation_truthy {i : Json} (ht : i.truthy = true)
    (h : wtInterpretation i = true) :
    ∃ gs, i = Json.obj gs ∧
      fieldOk gs "medicalCondition" wtCondition = true ∧
      fieldOk gs "summary" isStrJ = true ∧
      fieldOk gs "precautions" (listOkIfTruthy anyJson) = true ∧
      fieldOk gs "diet" (listOkIfTruthy anyJson) = true ∧
      fieldOk gs "consultation" wtConsultation = true ∧
      fieldOk gs "dos" (listOkIfTruthy anyJson) = true ∧
      fieldOk gs "donts" (listOkIfTruthy anyJson) = true ∧
      fieldOk gs "lifestyleChanges" (listOkIfTruthy anyJson) = true ∧
      fieldOk gs "suggestedDoctors" (listOkIfTruthy wtDoctor) = true ∧
      fieldOk gs "doctorRecommendations" (listOkIfTruthy wtRecommendation) = true := by
  unfold wtInterpretation at h
  rw [ht] at h
  rw [if_pos rfl] at h
  cases i with
  | obj gs =>
    simp only [Bool.and_eq_true] at h
    obtain ⟨⟨⟨⟨⟨⟨⟨⟨⟨h1, h2⟩, h3⟩, h4⟩, h5⟩, h6⟩, h7⟩, h8⟩, h9⟩, h10⟩ := h
    exact ⟨gs, rfl, h1, h2, h3, h4, h5, h6, h7, h8, h9, h10⟩
  | null => simp at h
  | bool b => simp at h
  | num n => simp at h
  | str s => simp at h
  | arr xs => simp at h

theorem generate_pdf_ok {data : Json} (h : WellTyped data = true) :
    exOk (generate_pdf data) = true := by
  cases data <;> simp [WellTyped] at h
  case obj fs =>
    obtain ⟨⟨⟨⟨⟨⟨⟨⟨⟨hid, -⟩, -⟩, -⟩, hcls⟩, -⟩, hsum⟩, hdet⟩, hfind⟩, hinterp⟩ := h
    unfold generate_pdf
    refine exOk_bind' (page1Blocks_ok hid hcls hsum hdet hfind) fun p1 _ => ?_
    rw [pyGet, pyGetD_obj_ok]
    refine exOk_bind' rfl fun interp hi => ?_
    have hiEq : interp = jfieldD (Json.obj fs) "muainaInterpretation" Json.null :=
      (Except.ok.inj hi).symm
    subst hiEq
    have hwt := fieldOk_jfieldD (d := Json.null) hinterp (by decide)
    cases hit : (jfieldD (Json.obj fs) "muainaInterpretation" Json.null).truthy with
    | false => simp [hit, exOk]
    | true =>
      obtain ⟨gs, hgs, h1, h2, h3, h4, h5, h6, h7, h8, h9, h10⟩ :=
        wtInterpretation_truthy hit hwt
      rw [if_pos rfl, hgs]
      refine exOk_bind' (page2Blocks_ok h1 h2 h3 h4 h5 h6 h7 h8) fun p2 _ => ?_
      refine exOk_bind' (page3Blocks_ok h9 h10) fun p3 _ => ?_
      rfl

/-- C3 (amended): for every input object whose present fields have the types
the rendering code expects, every absent field is replaced by its documented
default and the block construction performed by `generate_pdf` — all of the
script's own field lookups, slicing, upper-casing, truthiness tests and
loops — raises no error, so a missing key never causes a failure.  Failures
of the layout engine on adversarial present values (markup-invalid
paragraph text, unrenderable content) are outside this guarantee.  In
particular the minimal input renders a single-page document showing only
the default placeholders (no page-break block) with exit code 0. -/
theorem c3_welltyped_defaults (data : Json) (h : WellTyped data = true) :
    exOk (generate_pdf data) = true ∧
    generate_pdf emptyData = Except.ok emptyStory ∧
    Block.pageBreak ∉ emptyStory ∧
    runMain (Except.ok emptyData) = ⟨some emptyStory, "", 0⟩ :=
  ⟨generate_pdf_ok h, rfl, by decide, rfl⟩

/-- C3 counterexample: the claim as stated quantifies over every input JSON
object, but the object with a numeric id makes the slicing step raise, so
rendering fails and the process exits 1 with no standard-output bytes. -/
theorem c3_counterexample :
    exOk (generate_pdf cex3data) = false ∧
    (runMain (Except.ok cex3data)).exitCode = 1 ∧
    (runMain (Except.ok cex3data)).stdout = none :=
  ⟨rfl, rfl, rfl⟩

/-- C3 witness: the minimal input is well typed and renders the single-page
default story with exit code 0. -/
theorem c3_witness :
    WellTyped emptyData = true ∧
    (exOk (generate_pdf emptyData) = true ∧
     generate_pdf emptyData = Except.ok emptyStory ∧
     Block.pageBreak ∉ emptyStory ∧
     runMain (Except.ok emptyData) = ⟨some emptyStory, "", 0⟩) :=
  ⟨rfl, c3_welltyped_defaults emptyData rfl⟩
